import Mathlib

set_option synthInstance.maxSize 2000
set_option maxRecDepth 4000

/-!
# Verification of the header analyzers of `httpobs/scanner/analyzer/headers.py`

A shallow embedding of the evaluators in `httpobs/scanner/analyzer/headers.py`:
`__parse_csp`, `content_security_policy`, `cookies`, `public_key_pinning`,
`strict_transport_security`, `x_frame_options` and `x_xss_protection`.

Strings are processed as `List Char` (one entry per code point, matching
Python's view of `str`), with helper functions translating the Python string
methods used by the source (`strip`, `split`, `lower`, slicing, `in`).
The helpers assume the printable-ASCII header values the analyzers deal with:
`lower`, `strip` and the `repr`-length computations are exact on that
fragment of Python semantics.

Python `set` values are represented by duplicate-free `List (List Char)`
values (the parser deduplicates exactly where `set(...)` does in the source),
and Python `dict`s by association lists in insertion order.
-/

/-- Python's default `str.strip` / `str.split()` whitespace (ASCII part). -/
def isPySpace (c : Char) : Bool :=
  c = ' ' || c = '\t' || c = '\n' || c = '\r' || c = '\x0b' || c = '\x0c'

/-- Python `s.strip()` on the ASCII fragment. -/
def pyStrip (cs : List Char) : List Char :=
  ((cs.dropWhile isPySpace).reverse.dropWhile isPySpace).reverse

/-- Python `s.split(sep)` for a one-character separator. -/
def splitChar (sep : Char) : List Char → List (List Char)
  | [] => [[]]
  | c :: cs =>
    if c = sep then [] :: splitChar sep cs
    else
      match splitChar sep cs with
      | [] => [[c]]
      | s :: ss => (c :: s) :: ss

/-- Helper for `pyWsTokens`: `cur` is the reversed current token. -/
def wsSplitAux : List Char → List Char → List (List Char)
  | [], cur => if cur.isEmpty then [] else [cur.reverse]
  | c :: cs, cur =>
    if isPySpace c then
      if cur.isEmpty then wsSplitAux cs [] else cur.reverse :: wsSplitAux cs []
    else wsSplitAux cs (c :: cur)

/-- Python `s.split()` (split on whitespace runs, dropping empty pieces). -/
def pyWsTokens (cs : List Char) : List (List Char) :=
  wsSplitAux cs []

/-- Python `s.lower()` on the ASCII fragment. -/
def lowerList (cs : List Char) : List Char :=
  cs.map Char.toLower

/-- Python `s.startswith(pat)`. -/
def leadsWith : List Char → List Char → Bool
  | [], _ => true
  | _ :: _, [] => false
  | a :: as, b :: bs => a = b && leadsWith as bs

/-- Python `pat in s` (substring containment). -/
def hasSeq (pat : List Char) : List Char → Bool
  | [] => leadsWith pat []
  | c :: rest => leadsWith pat (c :: rest) || hasSeq pat rest

/-- `set(...)` built from a list: keep the first occurrence of each element. -/
def dedupKeepFirst (l : List (List Char)) : List (List Char) :=
  (l.foldl (fun acc t => if acc.contains t then acc else t :: acc) []).reverse

/-- `True` iff the list has a repeated element. -/
def hasDupB (l : List (List Char)) : Bool :=
  !(decide l.Nodup)

/-! ## Python `int(...)` on ASCII strings -/

/-- Validity of the characters after the first: digits, with single
underscores only between digits (Python 3.6+ literal grouping). -/
def digitsTail : List Char → Bool
  | [] => true
  | '_' :: rest =>
    match rest with
    | [] => false
    | c :: rest2 => c.isDigit && digitsTail rest2
  | c :: rest => c.isDigit && digitsTail rest

/-- A valid unsigned digit sequence for Python `int(...)`. -/
def pyDigitsOk : List Char → Bool
  | [] => false
  | c :: rest => c.isDigit && digitsTail rest

def natOfDigits (cs : List Char) : Nat :=
  cs.foldl (fun n c => if c = '_' then n else n * 10 + (c.toNat - 48)) 0

/-- Python `int(s)` on ASCII strings: surrounding whitespace is ignored, an
optional sign precedes a digit sequence; returns `none` when `int` raises. -/
def pyInt? (cs : List Char) : Option Int :=
  match pyStrip cs with
  | '+' :: ds => if pyDigitsOk ds then some (Int.ofNat (natOfDigits ds)) else none
  | '-' :: ds => if pyDigitsOk ds then some (-(Int.ofNat (natOfDigits ds))) else none
  | ds => if pyDigitsOk ds then some (Int.ofNat (natOfDigits ds)) else none

/-! ## Length of Python `repr` for the capped `data` outputs

The source guards `output['data']` with `len(str(csp)) < 32768` (and the
cookie jar alike).  Only the *length* of the Python `repr` matters, so it is
computed directly as a `Nat`.  Exact for printable-ASCII content: `repr` of a
string picks double quotes iff the string holds a single quote and no double
quote, and escapes the backslash and the chosen quote. -/

def reprQuote (t : List Char) : Char :=
  if t.any (fun c => c = '\x27') && !t.any (fun c => c = '"') then '"' else '\x27'

/-- Length of Python `repr` of a printable-ASCII string. -/
def reprLen (t : List Char) : Nat :=
  let q := reprQuote t
  2 + (t.map (fun c => if c = '\\' || c = q then 2 else 1)).sum

/-- Length of Python `repr` of a list of strings. -/
def listReprLen (vs : List (List Char)) : Nat :=
  match vs with
  | [] => 2
  | _ => (vs.map (fun v => reprLen v + 2)).sum

/-! ## The CSP policy type and `__parse_csp` -/

/-- A parsed policy: directive name → deduplicated source list, in insertion
order (the Python `dict` of `set`s). -/
abbrev Policy := List (List Char × List (List Char))

def lookupP (p : Policy) (d : List Char) : Option (List (List Char)) :=
  (p.find? (fun kv => kv.1 == d)).map (fun kv => kv.2)

def noneToken : List Char := "\x27none\x27".data

/-- One `;`-segment of a policy string: the first whitespace token is the
directive name, the remaining tokens (lowercased, deduplicated) are the value
set, defaulting to `'none'` when there are none.  A segment whose `strip()`
leaves no token at all makes the parse fail (the `entry[0]` IndexError in the
source escapes `__parse_csp` and is caught by the caller's bare `except`). -/
def parseSegment (seg : List Char) : Option (List Char × List (List Char)) :=
  match pyWsTokens (pyStrip seg) with
  | [] => none
  | [d] => some (d, [noneToken])
  | d :: rest => some (d, dedupKeepFirst (rest.map lowerList))

/-- The directive loop of `__parse_csp`: left to right, failing on a segment
without tokens or on a repeated directive name. -/
def parseDirectives : List (List Char) → Policy → Option Policy
  | [], acc => some acc.reverse
  | seg :: rest, acc =>
    match parseSegment seg with
    | none => none
    | some (d, vs) =>
      if acc.any (fun kv => kv.1 == d) then none
      else parseDirectives rest ((d, vs) :: acc)

/-- `__parse_csp` (headers.py lines 7-48): strip `\r`/`\n`, `strip()`, reject
short or all-whitespace strings, split on `;`, drop empty segments, and build
the directive dictionary.  `none` models any exception escaping the parse. -/
def __parse_csp (s : String) : Option Policy :=
  let cs := pyStrip (s.data.filter (fun c => !(c = '\r' || c = '\n')))
  if cs.length < 6 || (!cs.isEmpty && cs.all isPySpace) then none
  else parseDirectives ((splitChar ';' cs).filter (fun seg => !seg.isEmpty)) []

/-! ## The scan context -/

/-- The fields of `reqs['responses']['auto']` read by the evaluators under
study.  `urlScheme` stands for `urlparse(response.url).scheme`. -/
structure AutoResponse where
  cspHeader : Option String
  cspEquiv : Option String
  xfoHeader : Option String
  xxsspHeader : Option String
  urlScheme : String
deriving DecidableEq

/-- The fields of `reqs['responses']['https']` read by the evaluators. -/
structure HttpsResponse where
  verified : Bool
  hstsHeader : Option String
  hpkpHeader : Option String
deriving DecidableEq

/-- Result of `is_hsts_preloaded(netloc)` when the host is on the list. -/
structure HstsPreloadRec where
  includeSubDomains : Bool
deriving DecidableEq

/-- Result of `is_hpkp_preloaded(netloc)` when the host is on the list. -/
structure HpkpPreloadRec where
  includeSubDomainsForPinning : Bool
deriving DecidableEq

/-- A cookie of `session.cookies`.  `httponly` is `none` when the object does
not expose the attribute (the `hasattr` probe in the source), in which case
the evaluator backfills it from the raw attribute names in `rest`
(`cookie._rest`). -/
structure Cookie where
  name : String
  domain : String
  expires : Option Int
  path : String
  port : Option String
  secure : Bool
  httponly : Option Bool
  rest : List String
deriving DecidableEq

/-- The immutable bundle handed to every evaluator (`reqs`), with the preload
lookups for the https host resolved into fields. -/
structure ScanContext where
  auto : AutoResponse
  https : Option HttpsResponse
  hstsPreloadEntry : Option HstsPreloadRec
  hpkpPreloadEntry : Option HpkpPreloadRec
  jar : List Cookie
deriving DecidableEq

/-! ## `content_security_policy` -/

structure CspOutput where
  data : Option Policy
  expectation : String
  pass : Bool
  result : String
deriving DecidableEq

def broadSources : List (List Char) :=
  ["http:", "https:", "*", "http://*", "http://*.*", "https://*", "https://*.*"].map String.data

def inlineSources : List (List Char) :=
  ["\x27unsafe-inline\x27", "data:"].map String.data

def uiTok : List Char := "\x27unsafe-inline\x27".data
def evalTok : List Char := "\x27unsafe-eval\x27".data
def defaultSrcTok : List Char := "default-src".data
def scriptSrcTok : List Char := "script-src".data
def styleSrcTok : List Char := "style-src".data
def objectSrcTok : List Char := "object-src".data

/-- Nonempty intersection of two Python sets. -/
def intersects (a b : List (List Char)) : Bool := a.any (fun t => b.contains t)

/-- Python truthiness of `csp.get(d)` (absent or empty set are falsy). -/
def truthyOpt (v : Option (List (List Char))) : Bool :=
  match v with
  | some s => !s.isEmpty
  | none => false

/-- The object the variable `csp.get(d) or csp.get('default-src') or set(['*'])`
aliases: the stored set under `some` key, or the fresh singleton (`none`). -/
def pickRef (m : Policy) (d : List Char) : Option (List Char) :=
  if truthyOpt (lookupP m d) then some d
  else if truthyOpt (lookupP m defaultSrcTok) then some defaultSrcTok
  else none

/-- Read the set a reference currently denotes. -/
def derefP (m : Policy) : Option (List Char) → List (List Char)
  | some k => (lookupP m k).getD []
  | none => ["*".data]

/-- `source.startswith(("'sha256-", "'sha384-", "'sha512-", "'nonce-"))`. -/
def hashOrNonce (t : List Char) : Bool :=
  leadsWith "\x27sha256-".data t || leadsWith "\x27sha384-".data t ||
  leadsWith "\x27sha512-".data t || leadsWith "\x27nonce-".data t

/-- `script_src.remove("'unsafe-inline'")` on a Python set. -/
def removeUI (s : List (List Char)) : List (List Char) :=
  s.filter (fun t => !(t == uiTok))

/-- Replace the set stored under key `k`. -/
def setStoredAt (m : Policy) (k : List Char) (f : List (List Char) → List (List Char)) : Policy :=
  m.map (fun kv => if kv.1 == k then (kv.1, f kv.2) else kv)

/-- `csp.get('default-src') == set(["'none'"])`. -/
def isNoneSet : Option (List (List Char)) → Bool
  | some s => !s.isEmpty && s.all (fun t => t == noneToken)
  | none => false

/-- The six-rule decision chain of lines 136-156, parameterized by the
working `script_src` / `object_src` / `style_src` sets, the
`any('http:' in source)` scan over the dictionary's values, and the
dictionary's `default-src` entry. -/
def ruleChain (scriptS objectS styleS : List (List Char)) (httpAny : Bool)
    (defaultV : Option (List (List Char))) (isHttps : Bool) : String :=
  if intersects scriptS (broadSources ++ inlineSources) || intersects objectS broadSources then
    "csp-implemented-with-unsafe-inline"
  else if isHttps && httpAny then
    "csp-implemented-with-insecure-scheme"
  else if (scriptS ++ styleS).contains evalTok then
    "csp-implemented-with-unsafe-eval"
  else if intersects styleS (broadSources ++ inlineSources) then
    "csp-implemented-with-unsafe-inline-in-style-src-only"
  else if isNoneSet defaultV then
    "csp-implemented-with-no-unsafe-default-src-none"
  else
    "csp-implemented-with-no-unsafe"

/-- The classification step (headers.py lines 121-156) on a merged policy.
`object_src`, `script_src`, `style_src` are *references* into the policy
dictionary (or a fresh singleton), computed before the `'unsafe-inline'`
removal, which mutates the set `script_src` denotes in place; the chain then
reads the three references and the possibly mutated dictionary.  Returns the
result code together with the dictionary as left after the mutation (the
source converts it to lists for `output['data']`). -/
def cspClassify (m : Policy) (isHttps : Bool) : String × Policy :=
  let rObj := pickRef m objectSrcTok
  let rScr := pickRef m scriptSrcTok
  let rSty := pickRef m styleSrcTok
  let ss0 := derefP m rScr
  let fires := ss0.any hashOrNonce && ss0.contains uiTok
  let m' := if fires then
      match rScr with
      | some k => setStoredAt m k removeUI
      | none => m
    else m
  (ruleChain (derefP m' rScr) (derefP m' rObj) (derefP m' rSty)
    (m'.any (fun kv => kv.2.any (fun t => hasSeq "http:".data t)))
    (lookupP m' defaultSrcTok) isHttps, m')

/-- The `headers = ...` dictionary build of lines 86-95: parse whichever of
the HTTP header and the http-equiv value is present; `none` models the bare
`except` firing because one of the parses raised. -/
def cspParsedPair (r : AutoResponse) : Option (Option Policy × Option Policy) :=
  match r.cspHeader with
  | none =>
    match r.cspEquiv with
    | none => some (none, none)
    | some e =>
      match __parse_csp e with
      | none => none
      | some p => some (none, some p)
  | some h =>
    match __parse_csp h with
    | none => none
    | some p =>
      match r.cspEquiv with
      | none => some (some p, none)
      | some e =>
        match __parse_csp e with
        | none => none
        | some q => some (some p, some q)

def truthyPol : Option Policy → Bool
  | some p => !p.isEmpty
  | none => false

/-- Per-directive union of two parsed policies (lines 114-116). -/
def mergeP (hp ep : Policy) : Policy :=
  (dedupKeepFirst (hp.map (fun kv => kv.1) ++ ep.map (fun kv => kv.1))).map
    (fun k => (k, dedupKeepFirst ((lookupP hp k).getD [] ++ (lookupP ep k).getD [])))

/-- The effective policy the classification runs on (lines 106-118): the
union when both sources are truthy, otherwise whichever is truthy; `none`
when parsing failed or nothing usable is present. -/
def cspMergedPolicy (r : AutoResponse) : Option Policy :=
  match cspParsedPair r with
  | none => none
  | some (hp, ep) =>
    if truthyPol hp && truthyPol ep then some (mergeP (hp.getD []) (ep.getD []))
    else if truthyPol hp then hp
    else if truthyPol ep then ep
    else none

/-- Length of `str(csp)` for the dictionary-of-lists `data` payload. -/
def cspDataLen (p : Policy) : Nat :=
  match p with
  | [] => 2
  | _ => (p.map (fun kv => reprLen kv.1 + 2 + listReprLen kv.2 + 2)).sum

/-- `content_security_policy` (headers.py lines 51-172). -/
def content_security_policy (ctx : ScanContext) (expectation : String) : CspOutput :=
  match cspParsedPair ctx.auto with
  | none => ⟨none, expectation, false, "csp-header-invalid"⟩
  | some _ =>
    match cspMergedPolicy ctx.auto with
    | none =>
      if ctx.auto.cspHeader.isSome || ctx.auto.cspEquiv.isSome then
        ⟨none, expectation, false, "csp-header-invalid"⟩
      else
        ⟨none, expectation, false, "csp-not-implemented"⟩
    | some m =>
      let rp := cspClassify m (ctx.auto.urlScheme == "https")
      let dataP : Policy := if cspDataLen rp.2 < 32768 then rp.2 else []
      ⟨some dataP, expectation,
        rp.1 == expectation ||
        rp.1 == "csp-implemented-with-no-unsafe-default-src-none" ||
        rp.1 == "csp-implemented-with-unsafe-inline-in-style-src-only",
        rp.1⟩

/-! ## `strict_transport_security` -/

structure HstsOutput where
  data : Option String
  expectation : String
  includeSubDomains : Bool
  maxAge : Option Int
  pass : Bool
  preload : Bool
  preloaded : Bool
  result : String
deriving DecidableEq

def sixMonths : Int := 15552000

/-- The parameter loop of `strict_transport_security` (lines 492-498): the
accumulated `max-age` / `includesubdomains` / `preload` state, and `false` as
the second component when `int(...)` raised (keeping the state reached so
far, as the source's `output` dictionary does). -/
def hstsScan : List (List Char) → Option Int → Bool → Bool →
    (Option Int × Bool × Bool) × Bool
  | [], ma, isd, pl => ((ma, isd, pl), true)
  | p :: rest, ma, isd, pl =>
    if leadsWith "max-age=".data p then
      match pyInt? ((p.drop 8).take 120) with
      | none => ((ma, isd, pl), false)
      | some n => hstsScan rest (some n) isd pl
    else if p == "includesubdomains".data then hstsScan rest ma true pl
    else if p == "preload".data then hstsScan rest ma isd true
    else hstsScan rest ma isd pl

/-- `strict_transport_security` (headers.py lines 441-527). -/
def strict_transport_security (ctx : ScanContext) (expectation : String) : HstsOutput :=
  let base : HstsOutput := ⟨none, expectation, false, none, false, false, false, "hsts-not-implemented"⟩
  let o :=
    match ctx.https with
    | none => { base with result := "hsts-not-implemented-no-https" }
    | some r =>
      if !r.verified then { base with result := "hsts-invalid-cert" }
      else
        match r.hstsHeader with
        | none => base
        | some h =>
          let data := h.data.take 1024
          let dataS : Option String := some (String.mk data)
          if data.contains ',' then { base with data := dataS, result := "hsts-header-invalid" }
          else
            let params := (splitChar ';' data).map (fun i => pyStrip (lowerList i))
            match hstsScan params none false false with
            | ((ma, isd, pl), false) =>
              { base with data := dataS, maxAge := ma, includeSubDomains := isd, preload := pl, result := "hsts-header-invalid" }
            | ((ma, isd, pl), true) =>
              let o1 := { base with data := dataS, maxAge := ma, includeSubDomains := isd, preload := pl }
              match ma with
              | some n =>
                if n == 0 then { o1 with result := "hsts-header-invalid" }
                else if n < sixMonths then { o1 with result := "hsts-implemented-max-age-less-than-six-months" }
                else { o1 with result := "hsts-implemented-max-age-at-least-six-months" }
              | none => { o1 with result := "hsts-header-invalid" }
  let o2 :=
    match ctx.https, ctx.hstsPreloadEntry with
    | some _, some pr =>
      { o with result := "hsts-preloaded", includeSubDomains := pr.includeSubDomains, preloaded := true }
    | _, _ => o
  { o2 with pass := o2.result == "hsts-implemented-max-age-at-least-six-months" ||
      o2.result == "hsts-preloaded" || o2.result == expectation }

/-! ## `public_key_pinning` -/

structure HpkpOutput where
  data : Option String
  expectation : String
  includeSubDomains : Bool
  maxAge : Option Int
  numPins : Option Nat
  pass : Bool
  preloaded : Bool
  result : String
deriving DecidableEq

def fifteenDays : Int := 1296000

/-- The parameter loop of `public_key_pinning` (lines 331-337): accumulated
`max-age`, distinct `pin-sha256=` parameters in order of first appearance,
and `includesubdomains`; `false` when `int(...)` raised. -/
def hpkpScan : List (List Char) → Option Int → List (List Char) → Bool →
    (Option Int × List (List Char) × Bool) × Bool
  | [], ma, pins, isd => ((ma, pins, isd), true)
  | p :: rest, ma, pins, isd =>
    if leadsWith "max-age=".data p then
      match pyInt? ((p.drop 8).take 120) with
      | none => ((ma, pins, isd), false)
      | some n => hpkpScan rest (some n) pins isd
    else if leadsWith "pin-sha256=".data p && !pins.contains p then
      hpkpScan rest ma (pins ++ [p]) isd
    else if p == "includesubdomains".data then hpkpScan rest ma pins true
    else hpkpScan rest ma pins isd

/-- `public_key_pinning` (headers.py lines 281-364).  Note `pass` starts out
`True` and is only cleared in the `except` branch. -/
def public_key_pinning (ctx : ScanContext) (expectation : String) : HpkpOutput :=
  let base : HpkpOutput := ⟨none, expectation, false, none, none, true, false, "hpkp-not-implemented"⟩
  let o :=
    match ctx.https with
    | none => { base with result := "hpkp-not-implemented-no-https" }
    | some r =>
      if !r.verified then { base with result := "hpkp-invalid-cert" }
      else
        match r.hpkpHeader with
        | none => base
        | some h =>
          let data := h.data.take 2048
          let dataS : Option String := some (String.mk data)
          let params := (splitChar ';' data).map (fun i => pyStrip (lowerList i))
          match hpkpScan params none [] false with
          | ((ma, _pins, isd), false) =>
            { base with data := dataS, maxAge := ma, includeSubDomains := isd, result := "hpkp-header-invalid", pass := false }
          | ((ma, pins, isd), true) =>
            let o1 := { base with data := dataS, maxAge := ma, includeSubDomains := isd, numPins := some pins.length }
            let o2 :=
              match ma with
              | some n =>
                if n == 0 then o1
                else if n < fifteenDays then
                  { o1 with result := "hpkp-implemented-max-age-less-than-fifteen-days" }
                else { o1 with result := "hpkp-implemented-max-age-at-least-fifteen-days" }
              | none => o1
            if (match ma with | some n => !(n == 0) | none => false) && decide (2 ≤ pins.length) then o2
            else { o2 with result := "hpkp-header-invalid", pass := false }
  match ctx.https, ctx.hpkpPreloadEntry with
  | some _, some pr =>
    { o with result := "hpkp-preloaded", includeSubDomains := pr.includeSubDomainsForPinning, preloaded := true }
  | _, _ => o

/-! ## `cookies` -/

/-- The per-cookie record stored in the `jar` dictionary (lines 235-236);
`max-age` is looked up with `getattr(..., None)` and never exists, so it is
constantly `None` and omitted here. -/
structure CookieData where
  domain : List Char
  expires : Option Int
  httponly : Bool
  path : List Char
  port : Option (List Char)
  secure : Bool
deriving DecidableEq

structure CookiesOutput where
  data : Option (List (List Char × CookieData))
  expectation : String
  pass : Bool
  result : String
deriving DecidableEq

/-- The severity order of lines 203-207, best first. -/
def goodnessList : List String :=
  ["cookies-without-secure-flag-but-protected-by-hsts",
   "cookies-without-secure-flag",
   "cookies-session-without-secure-flag-but-protected-by-hsts",
   "cookies-session-without-httponly-flag",
   "cookies-session-without-secure-flag"]

/-- Modelled from the spec: `only_if_worse` (the GoodnessRanker of
`httpobs.scanner.analyzer.utils`, which is not under src/) keeps the worse of
the new candidate and the current result according to the given severity
order, and replaces a missing current result by the candidate. -/
def only_if_worse (cand : String) (old : Option String) (order : List String) : String :=
  match old with
  | none => cand
  | some o => if order.indexOf o < order.indexOf cand then cand else o

/-- The `hasattr` backfill of lines 228-232: set `httponly` from a
case-insensitive scan of the raw attribute names when absent. -/
def backfillCookie (c : Cookie) : Cookie :=
  match c.httponly with
  | some _ => c
  | none => { c with httponly := some (c.rest.any (fun k => lowerList k.data == "httponly".data)) }

/-- `any(i in cookie.name.lower() for i in ('login', 'sess'))`. -/
def isSessionName (name : String) : Bool :=
  hasSeq "login".data (lowerList name.data) || hasSeq "sess".data (lowerList name.data)

/-- The result updates for one cookie (lines 241-265); the cookie is assumed
already backfilled. -/
def cookieStep (hsts : Bool) (r : Option String) (c : Cookie) : Option String :=
  let sid := isSessionName c.name
  let ho := c.httponly.getD false
  let r1 :=
    if !c.secure && hsts then
      some (only_if_worse "cookies-without-secure-flag-but-protected-by-hsts" r goodnessList)
    else if !c.secure then some (only_if_worse "cookies-without-secure-flag" r goodnessList)
    else r
  let r2 :=
    if sid && !c.secure && hsts then
      some (only_if_worse "cookies-session-without-secure-flag-but-protected-by-hsts" r1 goodnessList)
    else if sid && !c.secure then some (only_if_worse "cookies-session-without-secure-flag" r1 goodnessList)
    else r1
  if sid && !ho then some (only_if_worse "cookies-session-without-httponly-flag" r2 goodnessList)
  else r2

def cookieRec (c : Cookie) : CookieData :=
  ⟨c.domain.data, c.expires, c.httponly.getD false, c.path.data, c.port.map String.data, c.secure⟩

/-- Python `dict` assignment: update in place, or append a new key. -/
def jarInsert (m : List (List Char × CookieData)) (k : List Char) (v : CookieData) :
    List (List Char × CookieData) :=
  if m.any (fun kv => kv.1 == k) then m.map (fun kv => if kv.1 == k then (k, v) else kv)
  else m ++ [(k, v)]

def jarDict (cs : List Cookie) : List (List Char × CookieData) :=
  cs.foldl (fun m c => jarInsert m c.name.data (cookieRec c)) []

def intReprLen (i : Int) : Nat := (toString i).data.length

def boolReprLen (b : Bool) : Nat := if b then 4 else 5

def optIntReprLen : Option Int → Nat
  | none => 4
  | some i => intReprLen i

def optStrReprLen : Option (List Char) → Nat
  | none => 4
  | some s => reprLen s

/-- Length of `repr` of one per-cookie dictionary: the seven fixed keys
`domain`, `expires`, `httponly`, `max-age`, `path`, `port`, `secure` in
order, with `max-age` always `None`. -/
def cookieRecLen (d : CookieData) : Nat :=
  2 + (8 + 2 + reprLen d.domain) + 2 + (9 + 2 + optIntReprLen d.expires) +
    2 + (10 + 2 + boolReprLen d.httponly) + 2 + (9 + 2 + 4) +
    2 + (6 + 2 + reprLen d.path) + 2 + (6 + 2 + optStrReprLen d.port) +
    2 + (8 + 2 + boolReprLen d.secure)

/-- Length of `str(jar)` for the cookie `data` payload. -/
def jarDataLen (m : List (List Char × CookieData)) : Nat :=
  match m with
  | [] => 2
  | _ => (m.map (fun kv => reprLen kv.1 + 2 + cookieRecLen kv.2 + 2)).sum

/-- `cookies` (headers.py lines 175-278).  The evaluator mutates the shared
context: `del(session.cookies['__cfduid'])` removes every cookie of that name
from the jar and the `hasattr` probe backfills `httponly` on the cookie
objects; the second component is the jar as the evaluation leaves it. -/
def cookies (ctx : ScanContext) (expectation : String) : CookiesOutput × List Cookie :=
  let hstsPass := (strict_transport_security ctx "hsts-implemented-max-age-at-least-six-months").pass
  match ctx.jar with
  | [] =>
    (⟨none, expectation,
      ("cookies-not-found" : String) == "cookies-not-found" || ("cookies-not-found" : String) == expectation,
      "cookies-not-found"⟩, ctx.jar)
  | _ :: _ =>
    let kept := ctx.jar.filter (fun c => !(c.name == "__cfduid"))
    let processed := kept.map backfillCookie
    let r0 := processed.foldl (fun r c => cookieStep hstsPass r c) none
    let jd := jarDict processed
    let dataP := if jarDataLen jd < 32768 then jd else []
    let result := r0.getD "cookies-secure-with-httponly-sessions"
    (⟨some dataP, expectation, result == "cookies-not-found" || result == expectation, result⟩,
      processed)

/-! ## `x_frame_options` and `x_xss_protection` -/

structure SimpleOutput where
  data : Option String
  expectation : String
  pass : Bool
  result : String
deriving DecidableEq

/-- `x_frame_options` (headers.py lines 570-621). -/
def x_frame_options (ctx : ScanContext) (expectation : String) : SimpleOutput :=
  let dr :=
    match ctx.auto.xfoHeader with
    | none => ((none : Option String), "x-frame-options-not-implemented")
    | some h =>
      let data := h.data.take 1024
      let xfo := lowerList (pyStrip data)
      (some (String.mk data),
       if xfo == "deny".data || xfo == "sameorigin".data then "x-frame-options-sameorigin-or-deny"
       else if leadsWith "allow-from ".data xfo then "x-frame-options-allow-from-origin"
       else "x-frame-options-header-invalid")
  let cspOut := content_security_policy ctx "csp-implemented-with-no-unsafe"
  let r1 :=
    match cspOut.data with
    | some p =>
      if !p.isEmpty && p.any (fun kv => kv.1 == "frame-ancestors".data) then
        "x-frame-options-implemented-via-csp"
      else dr.2
    | none => dr.2
  ⟨dr.1, expectation,
   r1 == "x-frame-options-allow-from-origin" || r1 == "x-frame-options-sameorigin-or-deny" ||
     r1 == "x-frame-options-implemented-via-csp" || r1 == expectation,
   r1⟩

/-- The dictionary comprehension of lines 663-664 on one `;`-piece. -/
def xxsspPair (d : List Char) : List Char × Option (List Char) :=
  match splitChar '=' d with
  | [] => ([], none)
  | [k] => (pyStrip k, none)
  | k :: v :: _ => (pyStrip k, some (pyStrip v))

/-- Python `dict(...).get(k)`: the value of the last piece with key `k`. -/
def dictLookupLast (ps : List (List Char × Option (List Char))) (k : List Char) :
    Option (Option (List Char)) :=
  ps.foldl (fun acc kv => if kv.1 == k then some kv.2 else acc) none

/-- `x_xss_protection` (headers.py lines 624-689).  An invalid header returns
immediately, before the CSP compensation at the end of the function. -/
def x_xss_protection (ctx : ScanContext) (expectation : String) : SimpleOutput :=
  let cspPass := (content_security_policy ctx "csp-implemented-with-no-unsafe").pass
  let notImpl : SimpleOutput :=
    if cspPass then ⟨none, expectation, true, "x-xss-protection-not-needed-due-to-csp"⟩
    else ⟨none, expectation, false, "x-xss-protection-not-implemented"⟩
  match ctx.auto.xxsspHeader with
  | none => notImpl
  | some h =>
    match h.data with
    | [] => notImpl
    | c :: _ =>
      let dataS : Option String := some (String.mk (h.data.take 256))
      if !(c = '0' || c = '1') then ⟨dataS, expectation, false, "x-xss-protection-header-invalid"⟩
      else
        let en := c = '1'
        let pairs := (splitChar ';' h.data).map xxsspPair
        let r :=
          if en && dictLookupLast pairs "mode".data == some (some "block".data) then
            "x-xss-protection-enabled-mode-block"
          else if en then "x-xss-protection-enabled"
          else "x-xss-protection-disabled"
        let p0 := hasSeq "enabled".data r.data
        if !p0 && cspPass then ⟨dataS, expectation, true, "x-xss-protection-not-needed-due-to-csp"⟩
        else ⟨dataS, expectation, p0, r⟩

/-! ## Claim-side definitions

These restate conditions in the words of the specification's claims, to be
compared with the evaluators above. -/

/-- `x ∈` the source set of directive `k` (empty when the directive is
absent). -/
def valsOf (p : Policy) (k : List Char) : List (List Char) := (lookupP p k).getD []

/-- The effective directive as the claims read it: fall back to
`default-src` when absent, and to the singleton `*` when that is absent
too. -/
def claimEffective (m : Policy) (d : List Char) : List (List Char) :=
  match lookupP m d with
  | some v => v
  | none =>
    match lookupP m defaultSrcTok with
    | some v => v
    | none => ["*".data]

/-- The six-rule ordered chain exactly as claim C1 states it: the special
removal rule drops `'unsafe-inline'` from the working `script-src` set only,
leaving the other effective sets and the stored policy untouched. -/
def claimChain (m : Policy) (isHttps : Bool) : String :=
  let ss0 := claimEffective m scriptSrcTok
  let ss := if ss0.any hashOrNonce && ss0.contains uiTok then removeUI ss0 else ss0
  ruleChain ss (claimEffective m objectSrcTok) (claimEffective m styleSrcTok)
    (m.any (fun kv => kv.2.any (fun t => hasSeq "http:".data t)))
    (lookupP m defaultSrcTok) isHttps

/-- The chain as amended: when the removal rule fires and `script-src` is
absent (so the working `script-src` *is* the stored `default-src` set), the
removal also reaches the effective `style-src` if it falls back to
`default-src` as well; the other rules are unaffected (removing
`'unsafe-inline'` cannot change the broad-scheme test on `object-src`, the
`http:` scan, the `'unsafe-eval'` test, or whether `default-src` equals
exactly the `'none'` singleton). -/
def amendedChain (m : Policy) (isHttps : Bool) : String :=
  let ss0 := claimEffective m scriptSrcTok
  let fires := ss0.any hashOrNonce && ss0.contains uiTok
  let ss := if fires then removeUI ss0 else ss0
  let sts0 := claimEffective m styleSrcTok
  let shared := (lookupP m scriptSrcTok).isNone && (lookupP m styleSrcTok).isNone &&
    (lookupP m defaultSrcTok).isSome
  let sts := if fires && shared then removeUI sts0 else sts0
  ruleChain ss (claimEffective m objectSrcTok) sts
    (m.any (fun kv => kv.2.any (fun t => hasSeq "http:".data t)))
    (lookupP m defaultSrcTok) isHttps

/-- A `;`-segment that strips to no token at all (only whitespace). -/
def segNoToken (seg : List Char) : Bool := (pyWsTokens (pyStrip seg)).isEmpty

/-- The parse-failure condition exactly as claim C2 states it: cleaned length
below 6 or all whitespace, or a repeated directive name. -/
def claimParseFails (s : String) : Bool :=
  let cs := pyStrip (s.data.filter (fun c => !(c = '\r' || c = '\n')))
  let segs := (splitChar ';' cs).filter (fun seg => !seg.isEmpty)
  cs.length < 6 || (!cs.isEmpty && cs.all isPySpace) ||
    hasDupB (segs.filterMap (fun seg => (pyWsTokens (pyStrip seg)).head?))

/-- The parse-failure condition as amended: additionally, a nonempty
`;`-segment consisting only of whitespace makes the parse fail. -/
def amendedParseFails (s : String) : Bool :=
  let cs := pyStrip (s.data.filter (fun c => !(c = '\r' || c = '\n')))
  let segs := (splitChar ';' cs).filter (fun seg => !seg.isEmpty)
  cs.length < 6 || (!cs.isEmpty && cs.all isPySpace) || segs.any segNoToken ||
    hasDupB (segs.filterMap (fun seg => (pyWsTokens (pyStrip seg)).head?))

/-- The invalid-header condition exactly as claim C4 states it: the truncated
header value contains a literal comma, or its `max-age` parameter is absent
or non-numeric. -/
def claimHstsInvalidCond (h : String) : Bool :=
  let data := h.data.take 1024
  let params := (splitChar ';' data).map (fun i => pyStrip (lowerList i))
  data.contains ',' ||
    !(params.any (fun p => leadsWith "max-age=".data p && (pyInt? ((p.drop 8).take 120)).isSome))

/-- The invalid-header condition as amended: a comma, or a `max-age`
parameter whose value `int(...)` rejects (scanning stops there), or a final
`max-age` that is absent or zero. -/
def amendedHstsInvalidCond (h : String) : Bool :=
  let data := h.data.take 1024
  let params := (splitChar ';' data).map (fun i => pyStrip (lowerList i))
  data.contains ',' ||
    (match hstsScan params none false false with
     | (_, false) => true
     | ((ma, _, _), true) => match ma with | none => true | some n => n == 0)

/-- Claim C10's characterization of a failed HPKP header parse: a verified
https response whose `Public-Key-Pins` header has a `max-age` value
`int(...)` rejects, or a missing or zero `max-age`, or fewer than two
distinct `pin-sha256=` parameters. -/
def hpkpHeaderBad (ctx : ScanContext) : Bool :=
  match ctx.https with
  | none => false
  | some r =>
    r.verified &&
      (match r.hpkpHeader with
       | none => false
       | some h =>
         let params := (splitChar ';' (h.data.take 2048)).map (fun i => pyStrip (lowerList i))
         match hpkpScan params none [] false with
         | (_, false) => true
         | ((ma, pins, _), true) =>
           (match ma with | none => true | some n => n == 0) || pins.length < 2)

/-! ## Concrete contexts for witnesses and counterexamples -/

/-- A policy whose `default-src` is shared by the effective `script-src` and
`style-src`, with both a nonce source and `'unsafe-inline'`. -/
def ctxNonceDefault : ScanContext :=
  ⟨⟨some "default-src \x27unsafe-inline\x27 \x27nonce-abc\x27", none, none, none, "https"⟩,
    none, none, none, []⟩

/-- A present CSP header that fails to parse (too short). -/
def ctxShortCsp : ScanContext :=
  ⟨⟨some "x", none, none, none, "https"⟩, none, none, none, []⟩

/-- A verified https response with `max-age=0` in Strict-Transport-Security
and no preload entry. -/
def ctxHstsZero : ScanContext :=
  ⟨⟨none, none, none, none, "https"⟩, some ⟨true, some "max-age=0", none⟩, none, none, []⟩

/-- An https response on both preload lists, with no usable headers and an
unverified chain. -/
def ctxPreloaded : ScanContext :=
  ⟨⟨none, none, none, none, "https"⟩, some ⟨false, none, none⟩, some ⟨true⟩, some ⟨false⟩, []⟩

/-- A jar holding only the CloudFlare tracking cookie. -/
def cfduidCookie : Cookie := ⟨"__cfduid", "x.org", none, "/", none, false, none, []⟩

def ctxOnlyCfduid : ScanContext :=
  ⟨⟨none, none, none, none, "http"⟩, none, none, none, [cfduidCookie]⟩

/-- An invalid X-XSS-Protection header together with a passing CSP. -/
def ctxXxsspInvalid : ScanContext :=
  ⟨⟨some "default-src \x27none\x27", none, none, some "junk", "https"⟩, none, none, none, []⟩

/-- A verified HPKP context with a header missing its second pin. -/
def ctxHpkpOnePin : ScanContext :=
  ⟨⟨none, none, none, none, "https"⟩,
    some ⟨true, none, some "pin-sha256=\x22a\x22; max-age=1296000"⟩, none, none, []⟩

/-- A merged policy with `frame-ancestors` whose serialized size reaches the
32768-character cap: `default-src` carries one 33000-character token. -/
def bigToken : List Char := List.replicate 33000 'a'

def ctxBigCsp : ScanContext :=
  ⟨⟨some (String.mk ("frame-ancestors x; default-src ".data ++ bigToken)), none, none, none,
    "http"⟩, none, none, none, []⟩

/-- The policy `ctxBigCsp`'s header parses to. -/
def bigPol : Policy :=
  [("frame-ancestors".data, ["x".data]), ("default-src".data, [bigToken])]

/-! ## Theorems -/

/-- **C5**: for every ScanContext with an https response whose host is on
the preload list, `strict_transport_security` reports `hsts-preloaded` and
`public_key_pinning` reports `hpkp-preloaded`, each taking
`includeSubDomains` from its preload record, regardless of the header. -/
theorem C5_preload_override (ctx : ScanContext) (e : String) (r : HttpsResponse)
    (hr : ctx.https = some r) :
    (∀ pr, ctx.hstsPreloadEntry = some pr →
      (strict_transport_security ctx e).result = "hsts-preloaded" ∧
      (strict_transport_security ctx e).includeSubDomains = pr.includeSubDomains) ∧
    (∀ pr, ctx.hpkpPreloadEntry = some pr →
      (public_key_pinning ctx e).result = "hpkp-preloaded" ∧
      (public_key_pinning ctx e).includeSubDomains = pr.includeSubDomainsForPinning) := by
  constructor
  · intro pr hpr
    unfold strict_transport_security
    rw [hr, hpr]
    simp
  · intro pr hpr
    unfold public_key_pinning
    rw [hr, hpr]
    simp

/-- Witness for C5 at a concrete context. -/
theorem C5_preload_override_witness :
    (strict_transport_security ctxPreloaded "x").result = "hsts-preloaded" ∧
    (public_key_pinning ctxPreloaded "x").includeSubDomains = false :=
  ⟨((C5_preload_override ctxPreloaded "x" ⟨false, none, none⟩ rfl).1 ⟨true⟩ rfl).1,
   ((C5_preload_override ctxPreloaded "x" ⟨false, none, none⟩ rfl).2 ⟨false⟩ rfl).2⟩

/-- **C10**: `public_key_pinning` fails (pass = false) exactly when a
verified https response carries a `Public-Key-Pins` header whose parse fails
(fewer than two distinct `pin-sha256=` entries, missing/zero/unparsable
`max-age`); every other outcome passes regardless of the expectation, and a
preload hit after an invalid header rewrites the result to `hpkp-preloaded`
while leaving pass false. -/
theorem C10_hpkp_pass_iff (ctx : ScanContext) (e : String) :
    ((public_key_pinning ctx e).pass = false ↔ hpkpHeaderBad ctx = true) ∧
    (hpkpHeaderBad ctx = true → ∀ pr, ctx.hpkpPreloadEntry = some pr →
      (public_key_pinning ctx e).result = "hpkp-preloaded" ∧
      (public_key_pinning ctx e).pass = false) := by
  unfold public_key_pinning hpkpHeaderBad
  cases hh : ctx.https with
  | none =>
    cases hp : ctx.hpkpPreloadEntry <;> simp [hh, hp]
  | some r =>
    cases hv : r.verified with
    | false =>
      cases hp : ctx.hpkpPreloadEntry <;> simp [hh, hv, hp]
    | true =>
      cases hdr : r.hpkpHeader with
      | none =>
        cases hp : ctx.hpkpPreloadEntry <;> simp [hh, hv, hdr, hp]
      | some h =>
        rcases hs : hpkpScan ((splitChar ';' (h.data.take 2048)).map (fun i => pyStrip (lowerList i)))
            none [] false with ⟨⟨ma, pins, isd⟩, ok⟩
        cases ok with
        | false =>
          cases hp : ctx.hpkpPreloadEntry <;> simp [hh, hv, hdr, hp, hs]
        | true =>
          cases hp : ctx.hpkpPreloadEntry with
          | none =>
            cases ma with
            | none => simp [hh, hv, hdr, hp, hs]
            | some n =>
              by_cases hn : n = 0
              · subst hn; simp [hh, hv, hdr, hp, hs]
              · by_cases hpin : 2 ≤ pins.length
                · by_cases hlt : n < fifteenDays <;>
                    simp [hh, hv, hdr, hp, hs, hn, hpin, Nat.not_lt.mpr hpin, hlt]
                · have hx : pins.length < 2 := Nat.lt_of_not_le hpin
                  by_cases hlt : n < fifteenDays <;>
                    simp [hh, hv, hdr, hp, hs, hn, hpin, hx, hlt]
          | some pr =>
            cases ma with
            | none => simp [hh, hv, hdr, hp, hs]
            | some n =>
              by_cases hn : n = 0
              · subst hn; simp [hh, hv, hdr, hp, hs]
              · by_cases hpin : 2 ≤ pins.length
                · by_cases hlt : n < fifteenDays <;>
                    simp [hh, hv, hdr, hp, hs, hn, hpin, Nat.not_lt.mpr hpin, hlt]
                · have hx : pins.length < 2 := Nat.lt_of_not_le hpin
                  by_cases hlt : n < fifteenDays <;>
                    simp [hh, hv, hdr, hp, hs, hn, hpin, hx, hlt]

/-- Witness for C10 at a concrete one-pin context with a preload hit absent:
the implication side is exercised through `ctxHpkpOnePin`. -/
theorem C10_hpkp_pass_iff_witness :
    (public_key_pinning ctxHpkpOnePin "x").pass = false :=
  ((C10_hpkp_pass_iff ctxHpkpOnePin "x").1).mpr (by decide)

/-- **C4 counterexample**: `max-age=0` has a present, numeric `max-age` and
no comma, so the claimed condition does not hold, yet the evaluator reports
`hsts-header-invalid` (Python's `if output['max-age']:` treats 0 as falsy). -/
theorem C4_hsts_zero_counterexample :
    (strict_transport_security ctxHstsZero "x").result = "hsts-header-invalid" ∧
    claimHstsInvalidCond "max-age=0" = false := by decide

/-- **C4 amended**: on a verified https response with a present
Strict-Transport-Security header and no preload entry, the result is
`hsts-header-invalid` iff the truncated header contains a comma, or a
`max-age` value is rejected by `int(...)`, or the final `max-age` is absent
or zero. -/
theorem C4_hsts_invalid_iff (ctx : ScanContext) (e : String) (r : HttpsResponse) (h : String)
    (hr : ctx.https = some r) (hv : r.verified = true) (hh : r.hstsHeader = some h)
    (hp : ctx.hstsPreloadEntry = none) :
    ((strict_transport_security ctx e).result = "hsts-header-invalid" ↔
      amendedHstsInvalidCond h = true) := by
  unfold strict_transport_security amendedHstsInvalidCond
  by_cases hc : ',' ∈ h.data.take 1024
  · simp [hr, hv, hh, hp, hc]
  · rcases hs : hstsScan ((splitChar ';' (h.data.take 1024)).map (fun i => pyStrip (lowerList i)))
        none false false with ⟨⟨ma, isd, pl⟩, ok⟩
    cases ok with
    | false => simp [hr, hv, hh, hp, hc, hs]
    | true =>
      cases ma with
      | none => simp [hr, hv, hh, hp, hc, hs]
      | some n =>
        by_cases hn : n = 0
        · subst hn; simp [hr, hv, hh, hp, hc, hs]
        · by_cases hlt : n < sixMonths <;> simp [hr, hv, hh, hp, hc, hs, hn, hlt]

/-- Witness for C4 as amended: the `max-age=0` header satisfies the amended
condition and indeed yields `hsts-header-invalid`. -/
theorem C4_hsts_invalid_iff_witness :
    amendedHstsInvalidCond "max-age=0" = true ∧
    (strict_transport_security ctxHstsZero "x").result = "hsts-header-invalid" :=
  ⟨by decide,
   (C4_hsts_invalid_iff ctxHstsZero "x" ⟨true, some "max-age=0", none⟩ "max-age=0"
      rfl rfl rfl rfl).mpr (by decide)⟩

/-- **C7 counterexample**: with a passing CSP (`default-src 'none'`) and the
invalid header `junk`, `x_xss_protection` returns `header-invalid` with pass
false — the compensation is skipped because the invalid branch returns
early. -/
theorem C7_invalid_header_counterexample :
    (content_security_policy ctxXxsspInvalid "csp-implemented-with-no-unsafe").pass = true ∧
    (x_xss_protection ctxXxsspInvalid "x").result = "x-xss-protection-header-invalid" ∧
    (x_xss_protection ctxXxsspInvalid "x").pass = false := by decide

/-- **C7 amended**: when the CSP evaluation of the same context passes,
`x_xss_protection` substitutes the compensating pass
(`x-xss-protection-not-needed-due-to-csp`) for an absent, empty, or disabled
(`0`) header; an invalid header (first character neither `0` nor `1`)
instead returns `x-xss-protection-header-invalid` with pass false, without
compensation. -/
theorem C7_csp_compensation (ctx : ScanContext) (e : String)
    (hcsp : (content_security_policy ctx "csp-implemented-with-no-unsafe").pass = true) :
    ((ctx.auto.xxsspHeader = none ∨ ctx.auto.xxsspHeader = some "" →
      (x_xss_protection ctx e).result = "x-xss-protection-not-needed-due-to-csp" ∧
      (x_xss_protection ctx e).pass = true) ∧
     (∀ h rest, ctx.auto.xxsspHeader = some h → h.data = '0' :: rest →
      (x_xss_protection ctx e).result = "x-xss-protection-not-needed-due-to-csp" ∧
      (x_xss_protection ctx e).pass = true) ∧
     (∀ h c rest, ctx.auto.xxsspHeader = some h → h.data = c :: rest → ¬(c = '0' ∨ c = '1') →
      (x_xss_protection ctx e).result = "x-xss-protection-header-invalid" ∧
      (x_xss_protection ctx e).pass = false)) := by
  refine ⟨?_, ?_, ?_⟩
  · rintro (hh | hh) <;>
      simp [x_xss_protection, hh, hcsp, String.data]
  · intro h rest hh hd
    have hen : ¬('0' = '1') := by decide
    simp [x_xss_protection, hh, hd, hcsp, hen, hasSeq, leadsWith]
  · intro h c rest hh hd hc
    push_neg at hc
    simp [x_xss_protection, hh, hd, hcsp, hc.1, hc.2]

/-- Witness for C7 at a concrete context with a passing CSP and an absent
X-XSS-Protection header. -/
theorem C7_csp_compensation_witness :
    (x_xss_protection ⟨⟨some "default-src \x27none\x27", none, none, none, "https"⟩, none, none,
      none, []⟩ "x").result = "x-xss-protection-not-needed-due-to-csp" :=
  ((C7_csp_compensation ⟨⟨some "default-src \x27none\x27", none, none, none, "https"⟩, none, none,
      none, []⟩ "x" (by decide)).1 (Or.inl rfl)).1

/-- **C6 counterexample**: a jar holding only the `__cfduid` tracking cookie
is nonempty, so the emptiness check fires before the deletion; the result is
`cookies-secure-with-httponly-sessions`, not `cookies-not-found`, and it does
not pass for an arbitrary expectation. -/
theorem C6_only_cfduid_counterexample :
    (cookies ctxOnlyCfduid "cookies-secure-with-httponly-sessions").1.result ≠ "cookies-not-found" ∧
    (cookies ctxOnlyCfduid "x").1.pass = false := by decide

/-- **C6 amended**: an empty jar yields `cookies-not-found`, passing for
every expectation; a nonempty jar holding only `__cfduid` cookies instead
yields `cookies-secure-with-httponly-sessions`, which passes exactly when it
equals the expectation. -/
theorem C6_empty_jar (ctx : ScanContext) (e : String) :
    (ctx.jar = [] →
      (cookies ctx e).1.result = "cookies-not-found" ∧ (cookies ctx e).1.pass = true) ∧
    (ctx.jar ≠ [] → (∀ c ∈ ctx.jar, c.name = "__cfduid") →
      (cookies ctx e).1.result = "cookies-secure-with-httponly-sessions" ∧
      ((cookies ctx e).1.pass = true ↔ e = "cookies-secure-with-httponly-sessions")) := by
  constructor
  · intro hj
    simp [cookies, hj]
  · intro hne hall
    cases hj : ctx.jar with
    | nil => exact absurd hj hne
    | cons c rest =>
      have hkept : (ctx.jar.filter (fun c => !(c.name == "__cfduid"))) = [] := by
        rw [List.filter_eq_nil_iff]
        intro a ha
        simp [hall a ha]
      rw [hj] at hkept
      simp [cookies, hj, hkept, jarDict, jarDataLen]
      exact eq_comm

/-- Witness for C6 as amended, at an empty jar and at a jar holding only
`__cfduid`. -/
theorem C6_empty_jar_witness :
    (cookies (⟨⟨none, none, none, none, "http"⟩, none, none, none, []⟩ : ScanContext) "x").1.result =
      "cookies-not-found" ∧
    (cookies ctxOnlyCfduid "x").1.result = "cookies-secure-with-httponly-sessions" :=
  ⟨((C6_empty_jar ⟨⟨none, none, none, none, "http"⟩, none, none, none, []⟩ "x").1 rfl).1,
   ((C6_empty_jar ctxOnlyCfduid "x").2 (by decide) (by decide)).1⟩

theorem backfill_name (c : Cookie) : (backfillCookie c).name = c.name := by
  unfold backfillCookie
  cases c.httponly <;> rfl

theorem backfill_idem (c : Cookie) : backfillCookie (backfillCookie c) = backfillCookie c := by
  cases hc : c.httponly <;> simp [backfillCookie, hc]

/-- **C9 counterexample**: the cookies evaluator mutates the ScanContext —
deleting `__cfduid` leaves a different jar, and a second run on the mutated
context even returns a different result. -/
theorem C9_cookies_mutation_counterexample :
    (cookies ctxOnlyCfduid "x").2 ≠ ctxOnlyCfduid.jar ∧
    (cookies ctxOnlyCfduid "x").1.result = "cookies-secure-with-httponly-sessions" ∧
    (cookies { ctxOnlyCfduid with jar := (cookies ctxOnlyCfduid "x").2 } "x").1.result =
      "cookies-not-found" := by decide

/-- **C9 amended**: only the cookies evaluator touches the context (the jar
loses its `__cfduid` cookies and the cookie objects get `httponly`
backfilled); rerunning it on the jar it left behind returns the same
ScoredResult and leaves the jar unchanged — except in the corner where the
jar held only `__cfduid` cookies, excluded by the hypothesis, where a second
run reports `cookies-not-found` instead. -/
theorem C9_cookies_rerun (ctx : ScanContext) (e : String)
    (hne : (cookies ctx e).2 ≠ [] ∨ ctx.jar = []) :
    (cookies { ctx with jar := (cookies ctx e).2 } e).1 = (cookies ctx e).1 ∧
    (cookies { ctx with jar := (cookies ctx e).2 } e).2 = (cookies ctx e).2 := by
  cases hj : ctx.jar with
  | nil =>
    have h2 : (cookies ctx e).2 = ctx.jar := by simp [cookies, hj]
    have hctx : { ctx with jar := (cookies ctx e).2 } = ctx := by rw [h2]
    rw [hctx]
    exact ⟨rfl, rfl⟩
  | cons c rest =>
    have h2 : (cookies ctx e).2 =
        ((c :: rest).filter (fun k => !(k.name == "__cfduid"))).map backfillCookie := by
      simp [cookies, hj]
    set processed := ((c :: rest).filter (fun k => !(k.name == "__cfduid"))).map backfillCookie
      with hproc
    have hnocf : ∀ k ∈ processed, !(k.name == "__cfduid") := by
      intro k hk
      rcases List.mem_map.mp hk with ⟨a, ha, rfl⟩
      rw [backfill_name]
      exact (List.mem_filter.mp ha).2
    have hfilter : processed.filter (fun k => !(k.name == "__cfduid")) = processed :=
      List.filter_eq_self.mpr hnocf
    have hmap : processed.map backfillCookie = processed := by
      rw [hproc, List.map_map]
      exact List.map_congr_left (fun a _ => backfill_idem a)
    have hpne : processed ≠ [] := by
      rcases hne with h | h
      · rw [h2] at h; exact h
      · rw [h] at hj; exact absurd hj.symm (List.cons_ne_nil c rest)
    cases hp : processed with
    | nil => exact absurd hp hpne
    | cons p ps =>
      have hfilter2 : (p :: ps).filter (fun k => !(k.name == "__cfduid")) = p :: ps :=
        hp ▸ hfilter
      have hmap2 : (p :: ps).map backfillCookie = p :: ps := hp ▸ hmap
      have hjar2 : ({ ctx with jar := (cookies ctx e).2 } : ScanContext).jar = p :: ps := by
        rw [show ({ ctx with jar := (cookies ctx e).2 } : ScanContext).jar =
          (cookies ctx e).2 from rfl, h2, hp]
      have hsts3 : ∀ (X : List Cookie) (s : String),
          strict_transport_security { ctx with jar := X } s = strict_transport_security ctx s :=
        fun _ _ => rfl
      have hmain : cookies { ctx with jar := (cookies ctx e).2 } e = cookies ctx e := by
        simp only [cookies, hj]
        rw [← hproc, hp]
        simp [hsts3, hfilter2, hmap2]
      exact ⟨congrArg (fun x => x.1) hmain, congrArg (fun x => x.2) hmain⟩

/-- Witness for C9 as amended, at a one-cookie jar. -/
theorem C9_cookies_rerun_witness :
    (cookies { (⟨⟨none, none, none, none, "http"⟩, none, none, none,
        [⟨"sid", "d", none, "/", none, true, some true, []⟩]⟩ : ScanContext) with
        jar := (cookies (⟨⟨none, none, none, none, "http"⟩, none, none, none,
          [⟨"sid", "d", none, "/", none, true, some true, []⟩]⟩ : ScanContext) "x").2 } "x").1 =
      (cookies (⟨⟨none, none, none, none, "http"⟩, none, none, none,
        [⟨"sid", "d", none, "/", none, true, some true, []⟩]⟩ : ScanContext) "x").1 :=
  (C9_cookies_rerun (⟨⟨none, none, none, none, "http"⟩, none, none, none,
    [⟨"sid", "d", none, "/", none, true, some true, []⟩]⟩ : ScanContext) "x"
    (Or.inl (by decide))).1

theorem mem_dedup_foldl (l : List (List Char)) (acc : List (List Char)) (x : List Char) :
    (x ∈ l.foldl (fun acc t => if acc.contains t then acc else t :: acc) acc) ↔
      (x ∈ acc ∨ x ∈ l) := by
  induction l generalizing acc with
  | nil => simp
  | cons t l ih =>
    simp only [List.foldl_cons]
    rw [ih]
    by_cases hc : acc.contains t
    · have ht : t ∈ acc := List.mem_of_elem_eq_true hc
      simp only [hc, if_pos, List.mem_cons]
      constructor
      · rintro (h | h)
        · exact Or.inl h
        · exact Or.inr (Or.inr h)
      · rintro (h | h | h)
        · exact Or.inl h
        · exact Or.inl (h ▸ ht)
        · exact Or.inr h
    · simp only [hc, if_neg, Bool.false_eq_true, not_false_iff, List.mem_cons]
      tauto

theorem mem_dedupKeepFirst (l : List (List Char)) (x : List Char) :
    (x ∈ dedupKeepFirst l) ↔ (x ∈ l) := by
  unfold dedupKeepFirst
  rw [List.mem_reverse, mem_dedup_foldl]
  simp

theorem lookupP_keys_map (keys : List (List Char)) (f : List Char → List (List Char))
    (d : List Char) :
    lookupP (keys.map (fun k => (k, f k))) d = if d ∈ keys then some (f d) else none := by
  induction keys with
  | nil => simp [lookupP]
  | cons k ks ih
 =>
    simp only [List.map_cons]
    by_cases hk : k = d
    · subst hk
      simp [lookupP, List.find?]
    · unfold lookupP at ih ⊢
      rw [List.find?_cons_of_neg]
      · rw [ih]
        by_cases hd : d ∈ ks
        · simp [List.mem_cons, hd, Ne.symm hk]
        · simp [List.mem_cons, hd, Ne.symm hk]
      · simp [hk]

theorem lookupP_isSome_iff (p : Policy) (d : List Char) :
    (lookupP p d).isSome ↔ d ∈ p.map (fun kv => kv.1) := by
  unfold lookupP
  rw [Option.isSome_map']
  rw [List.find?_isSome]
  simp only [List.mem_map, beq_iff_eq]

theorem lookupP_mergeP (hp ep : Policy) (d : List Char) :
    lookupP (mergeP hp ep) d =
      if (lookupP hp d).isSome ∨ (lookupP ep d).isSome then
        some (dedupKeepFirst ((lookupP hp d).getD [] ++ (lookupP ep d).getD []))
      else none := by
  unfold mergeP
  rw [lookupP_keys_map]
  congr 1
  rw [eq_iff_iff]
  rw [mem_dedupKeepFirst, List.mem_append, ← lookupP_isSome_iff, ← lookupP_isSome_iff]

/-- **C3**: when both the header policy and the http-equiv policy parse, the
effective policy maps each directive occurring in either to the union of its
source sets across the two (a directive on one side only keeps its own set);
when exactly one parses to a truthy policy, that policy is the effective
one. -/
theorem C3_policy_merge (r : AutoResponse) :
    (∀ hp ep m, cspParsedPair r = some (some hp, some ep) → cspMergedPolicy r = some m →
      (∀ k, (lookupP m k).isSome ↔ ((lookupP hp k).isSome ∨ (lookupP ep k).isSome)) ∧
      (∀ k x, x ∈ valsOf m k ↔ (x ∈ valsOf hp k ∨ x ∈ valsOf ep k))) ∧
    (∀ hp, cspParsedPair r = some (some hp, none) → truthyPol (some hp) = true →
      cspMergedPolicy r = some hp) ∧
    (∀ ep, cspParsedPair r = some (none, some ep) → truthyPol (some ep) = true →
      cspMergedPolicy r = some ep) := by
  refine ⟨?_, ?_, ?_⟩
  · intro hp ep m hpair hm
    unfold cspMergedPolicy at hm
    rw [hpair] at hm
    by_cases hhe : hp = []
    · subst hhe
      by_cases hee : ep = []
      · subst hee
        simp [truthyPol] at hm
      · have : m = ep := by
          simp [truthyPol, hee] at hm
          exact hm.symm
        subst this
        constructor
        · intro k
          simp [lookupP]
        · intro k x
          simp [valsOf, lookupP]
    · by_cases hee : ep = []
      · have : m = hp := by
          simp [truthyPol, hhe, hee] at hm
          exact hm.symm
        subst this
        constructor
        · intro k
          simp [lookupP, hee]
        · intro k x
          simp [valsOf, lookupP, hee]
      · have : m = mergeP hp ep := by
          simp [truthyPol, hhe, hee] at hm
          exact hm.symm
        subst this
        constructor
        · intro k
          rw [lookupP_mergeP]
          by_cases hc : (lookupP hp k).isSome ∨ (lookupP ep k).isSome <;> simp [hc]
        · intro k x
          unfold valsOf
          rw [lookupP_mergeP]
          by_cases hc : (lookupP hp k).isSome ∨ (lookupP ep k).isSome
          · simp only [hc, if_pos, Option.getD_some]
            rw [mem_dedupKeepFirst, List.mem_append]
          · simp only [hc, if_neg, not_false_iff, Option.getD_none]
            push_neg at hc
            rcases hc with ⟨h1, h2⟩
            have h1x : lookupP hp k = none := Option.not_isSome_iff_eq_none.mp (by simpa using h1)
            have h2x : lookupP ep k = none := Option.not_isSome_iff_eq_none.mp (by simpa using h2)
            simp [h1x, h2x]
  · intro hp hpair ht
    unfold cspMergedPolicy
    rw [hpair]
    simp only [truthyPol] at ht ⊢
    simp [ht]
  · intro ep hpair ht
    unfold cspMergedPolicy
    rw [hpair]
    simp only [truthyPol] at ht ⊢
    simp [ht]

/-- Witness for C3 at the merge of `script-src 'self'` (header) and
`script-src 'unsafe-inline'` (http-equiv), and at a single-source policy. -/
theorem C3_policy_merge_witness :
    ("\x27self\x27".data ∈ valsOf [("script-src".data,
        ["\x27self\x27".data, "\x27unsafe-inline\x27".data])] "script-src".data ∧
     "\x27unsafe-inline\x27".data ∈ valsOf [("script-src".data,
        ["\x27self\x27".data, "\x27unsafe-inline\x27".data])] "script-src".data) ∧
    cspMergedPolicy ⟨some "script-src \x27self\x27", none, none, none, "https"⟩ =
      some [("script-src".data, ["\x27self\x27".data])] := by
  refine ⟨⟨?_, ?_⟩, ?_⟩
  · exact (((C3_policy_merge ⟨some "script-src \x27self\x27",
        some "script-src \x27unsafe-inline\x27", none, none, "https"⟩).1
      [("script-src".data, ["\x27self\x27".data])]
      [("script-src".data, ["\x27unsafe-inline\x27".data])]
      [("script-src".data, ["\x27self\x27".data, "\x27unsafe-inline\x27".data])]
      (by decide) (by decide)).2 "script-src".data "\x27self\x27".data).mpr
      (Or.inl (by decide))
  · exact (((C3_policy_merge ⟨some "script-src \x27self\x27",
        some "script-src \x27unsafe-inline\x27", none, none, "https"⟩).1
      [("script-src".data, ["\x27self\x27".data])]
      [("script-src".data, ["\x27unsafe-inline\x27".data])]
      [("script-src".data, ["\x27self\x27".data, "\x27unsafe-inline\x27".data])]
      (by decide) (by decide)).2 "script-src".data "\x27unsafe-inline\x27".data).mpr
      (Or.inr (by decide))
  · exact (C3_policy_merge ⟨some "script-src \x27self\x27", none, none, none, "https"⟩).2.1
      [("script-src".data, ["\x27self\x27".data])] (by decide) (by decide)

/-- **C3 counterexample**: the header `;;;;;;` parses successfully to the
empty dictionary, so exactly one parsed policy is present, yet it is not the
effective policy: the empty dictionary is falsy, `not any(headers.values())`
fires, and the evaluator reports `csp-header-invalid` with no effective
policy at all. -/
theorem C3_empty_policy_counterexample :
    cspParsedPair ⟨some ";;;;;;", none, none, none, "https"⟩ = some (some [], none) ∧
    cspMergedPolicy ⟨some ";;;;;;", none, none, none, "https"⟩ = none ∧
    (content_security_policy
      ⟨⟨some ";;;;;;", none, none, none, "https"⟩, none, none, none, []⟩
      "csp-implemented-with-no-unsafe").result = "csp-header-invalid" := by
  decide

theorem parseSegment_eq_none (seg : List Char) :
    parseSegment seg = none ↔ segNoToken seg = true := by
  unfold parseSegment segNoToken
  cases h : pyWsTokens (pyStrip seg) with
  | nil => simp
  | cons d rest => cases rest <;> simp

theorem parseSegment_name (seg : List Char) (d : List Char) (vs : List (List Char))
    (h : parseSegment seg = some (d, vs)) :
    (pyWsTokens (pyStrip seg)).head? = some d := by
  unfold parseSegment at h
  cases ht : pyWsTokens (pyStrip seg) with
  | nil => rw [ht] at h; simp at h
  | cons a rest =>
    rw [ht] at h
    cases rest with
    | nil =>
      simp only [Option.some.injEq, Prod.mk.injEq] at h
      simp [h.1]
    | cons b r =>
      simp only [Option.some.injEq, Prod.mk.injEq] at h
      simp [h.1]

theorem parseDirectives_none_iff (segs : List (List Char)) (acc : Policy)
    (hacc : (acc.map (fun kv => kv.1)).Nodup) :
    parseDirectives segs acc = none ↔
      ((∃ seg ∈ segs, segNoToken seg = true) ∨
       ¬ ((acc.map (fun kv => kv.1)) ++
          segs.filterMap (fun seg => (pyWsTokens (pyStrip seg)).head?)).Nodup) := by
  induction segs generalizing acc with
  | nil => simp [parseDirectives, hacc]
  | cons seg rest ih =>
    unfold parseDirectives
    cases hps : parseSegment seg with
    | none =>
      have hsn := (parseSegment_eq_none seg).mp hps
      simp [hsn]
    | some dv =>
      obtain ⟨d, vs⟩ := dv
      have hname : (pyWsTokens (pyStrip seg)).head? = some d := parseSegment_name _ _ _ hps
      have hnotok : segNoToken seg = false := by
        cases hsn : segNoToken seg
        · rfl
        · exact absurd ((parseSegment_eq_none seg).mpr hsn) (by simp [hps])
      by_cases hd : acc.any (fun kv => kv.1 == d)
      · have hmem : d ∈ acc.map (fun kv => kv.1) := by
          rcases List.any_eq_true.mp hd with ⟨kv, hkv, he⟩
          exact List.mem_map.mpr ⟨kv, hkv, beq_iff_eq.mp he⟩
        simp only [hd, if_pos, List.filterMap_cons, hname]
        constructor
        · intro _
          right
          intro hnd
          have hdisj := (List.nodup_append.mp hnd).2.2
          exact hdisj hmem (List.mem_cons_self _ _)
        · intro _
          trivial
      · have hdm : d ∉ acc.map (fun kv => kv.1) := by
          intro hmem
          rcases List.mem_map.mp hmem with ⟨kv, hkv, hkd⟩
          exact hd (List.any_eq_true.mpr ⟨kv, hkv, beq_iff_eq.mpr hkd⟩)
        simp only [hd, if_neg, Bool.false_eq_true, not_false_iff, List.filterMap_cons, hname]
        rw [ih ((d, vs) :: acc) (by simp [List.nodup_cons, hdm, hacc])]
        have hperm : ((((d, vs) :: acc).map (fun kv => kv.1)) ++
            rest.filterMap (fun seg => (pyWsTokens (pyStrip seg)).head?)).Nodup ↔
            ((acc.map (fun kv => kv.1)) ++ d ::
              rest.filterMap (fun seg => (pyWsTokens (pyStrip seg)).head?)).Nodup := by
          apply List.Perm.nodup_iff
          simp only [List.map_cons, List.cons_append]
          exact (List.perm_middle).symm
        rw [hperm]
        simp [hnotok]

/-- **C2 counterexample**: `a; ;bcdef` is long enough, not whitespace, and
has no repeated directive name, yet parsing fails — the middle segment is
whitespace-only, so `entry[0]` raises IndexError. -/
theorem C2_ws_segment_counterexample :
    __parse_csp "a; ;bcdef" = none ∧ claimParseFails "a; ;bcdef" = false := by decide

/-- **C2 amended**: parsing fails exactly when the cleaned string is shorter
than 6 or all whitespace, or some nonempty `;`-segment holds no token, or a
directive name repeats; and whenever a present header or http-equiv value
fails to parse, the evaluator reports `csp-header-invalid` with pass false. -/
theorem C2_parse_failure :
    (∀ s, (__parse_csp s = none ↔ amendedParseFails s = true)) ∧
    (∀ ctx e, ((∃ h, ctx.auto.cspHeader = some h ∧ __parse_csp h = none) ∨
               (∃ h, ctx.auto.cspEquiv = some h ∧ __parse_csp h = none)) →
      (content_security_policy ctx e).result = "csp-header-invalid" ∧
      (content_security_policy ctx e).pass = false) := by
  constructor
  · intro s
    unfold __parse_csp amendedParseFails
    dsimp only
    split
    · rename_i hg
      simp only [true_iff]
      simp at hg
      simp
      exact Or.inl (Or.inl hg)
    · rename_i hg
      rw [Bool.not_eq_true] at hg
      simp only [hg, Bool.false_eq_true, if_neg, not_false_iff, Bool.false_or]
      rw [parseDirectives_none_iff _ [] (by simp)]
      simp [List.any_eq_true, hasDupB, segNoToken, and_assoc]
  · intro ctx e hcase
    have hpair : cspParsedPair ctx.auto = none := by
      rcases hcase with ⟨h, hh, hp⟩ | ⟨h, hh, hp⟩
      · simp [cspParsedPair, hh, hp]
      · cases hch : ctx.auto.cspHeader with
        | none => simp [cspParsedPair, hch, hh, hp]
        | some h0 =>
          cases hph : __parse_csp h0 with
          | none => simp [cspParsedPair, hch, hph]
          | some p => simp [cspParsedPair, hch, hph, hh, hp]
    constructor <;> simp [content_security_policy, hpair]

/-- Witness for C2 as amended: the one-character header `x` fails to parse
and the evaluator reports `csp-header-invalid`. -/
theorem C2_parse_failure_witness :
    (content_security_policy ctxShortCsp "x").result = "csp-header-invalid" ∧
    (content_security_policy ctxShortCsp "x").pass = false :=
  C2_parse_failure.2 ctxShortCsp "x" (Or.inl ⟨"x", rfl, by decide⟩)

theorem lookupP_mem (m : Policy) (d : List Char) (v : List (List Char))
    (h : lookupP m d = some v) : ∃ kv ∈ m, kv.2 = v := by
  unfold lookupP at h
  cases hf : m.find? (fun kv => kv.1 == d) with
  | none => rw [hf] at h; simp at h
  | some kv =>
    rw [hf] at h
    simp only [Option.map_some', Option.some.injEq] at h
    exact ⟨kv, List.mem_of_find?_eq_some hf, h⟩

theorem contains_eq_mem (l : List (List Char)) (x : List Char) :
    l.contains x = decide (x ∈ l) := by
  by_cases h : x ∈ l
  · rw [decide_eq_true h]
    exact List.elem_eq_true_of_mem h
  · rw [decide_eq_false h]
    cases hc : l.contains x
    · rfl
    · exact absurd (List.mem_of_elem_eq_true hc) h

theorem any_removeUI (v : List (List Char)) (q : List Char → Bool) (hq : q uiTok = false) :
    (removeUI v).any q = v.any q := by
  induction v with
  | nil => rfl
  | cons t v ih =>
    unfold removeUI at ih ⊢
    rw [List.filter_cons]
    by_cases ht : t = uiTok
    · subst ht
      simp [hq, ih]
    · simp [beq_eq_false_iff_ne.mpr ht, ih]

theorem mem_removeUI (v : List (List Char)) (x : List Char) (hx : x ≠ uiTok) :
    x ∈ removeUI v ↔ x ∈ v := by
  unfold removeUI
  rw [List.mem_filter]
  simp [beq_eq_false_iff_ne.mpr hx]

theorem contains_removeUI (v : List (List Char)) (x : List Char) (hx : x ≠ uiTok) :
    (removeUI v).contains x = v.contains x := by
  rw [contains_eq_mem, contains_eq_mem]
  by_cases h : x ∈ v
  · simp [h, (mem_removeUI v x hx).mpr h]
  · have h2 : x ∉ removeUI v := fun hc => h ((mem_removeUI v x hx).mp hc)
    simp [h, h2]

theorem lookupP_cons (a : List Char) (b : List (List Char)) (rest : Policy) (d : List Char) :
    lookupP ((a, b) :: rest) d = if a = d then some b else lookupP rest d := by
  unfold lookupP
  rw [List.find?_cons]
  by_cases h : a = d
  · simp [h]
  · simp [beq_eq_false_iff_ne.mpr h, h]

theorem setStoredAt_cons (a : List Char) (b : List (List Char)) (rest : Policy)
    (k : List Char) (f : List (List Char) → List (List Char)) :
    setStoredAt ((a, b) :: rest) k f =
      (if a = k then (a, f b) else (a, b)) :: setStoredAt rest k f := by
  unfold setStoredAt
  rw [List.map_cons]
  by_cases h : a = k
  · simp [h]
  · simp [beq_eq_false_iff_ne.mpr h, h]

theorem lookupP_setStoredAt (m : Policy) (k k' : List Char)
    (f : List (List Char) → List (List Char)) :
    lookupP (setStoredAt m k f) k' =
      if k' = k then (lookupP m k).map f else lookupP m k' := by
  induction m with
  | nil => simp [setStoredAt, lookupP]
  | cons kv rest ih =>
    obtain ⟨a, b⟩ := kv
    rw [setStoredAt_cons]
    by_cases hak : a = k
    · subst hak
      rw [if_pos rfl, lookupP_cons, lookupP_cons]
      by_cases hk' : a = k'
      · subst hk'
        simp [lookupP_cons]
      · simp only [hk', if_neg, not_false_iff, ih]
        have hka : ¬(k' = a) := fun h => hk' h.symm
        simp [hka, lookupP_cons, hk']
    · rw [if_neg hak, lookupP_cons, lookupP_cons]
      by_cases hk' : a = k'
      · subst hk'
        simp [hak, lookupP_cons]
      · simp only [hk', if_neg, not_false_iff, ih, lookupP_cons]
        simp [hak]

theorem any_http_setStoredAt (m : Policy) (k : List Char) :
    ((setStoredAt m k removeUI).any (fun kv => kv.2.any (fun t => hasSeq "http:".data t))) =
      (m.any (fun kv => kv.2.any (fun t => hasSeq "http:".data t))) := by
  have hq : hasSeq "http:".data uiTok = false := by decide
  induction m with
  | nil => rfl
  | cons kv rest ih =>
    obtain ⟨a, b⟩ := kv
    rw [setStoredAt_cons]
    by_cases hak : a = k
    · simp only [hak, if_pos, List.any_cons, ih]
      rw [any_removeUI _ _ hq]
    · simp only [hak, if_neg, not_false_iff, List.any_cons, ih]

theorem dedupKeepFirst_ne_nil (l : List (List Char)) (hl : l ≠ []) : dedupKeepFirst l ≠ [] := by
  cases l with
  | nil => exact absurd rfl hl
  | cons x xs =>
    intro hc
    have hx : x ∈ dedupKeepFirst (x :: xs) := (mem_dedupKeepFirst _ _).mpr (List.mem_cons_self _ _)
    rw [hc] at hx
    exact absurd hx (List.not_mem_nil x)

theorem parseSegment_val_ne (seg : List Char) (d : List Char) (vs : List (List Char))
    (h : parseSegment seg = some (d, vs)) : vs ≠ [] := by
  unfold parseSegment at h
  cases ht : pyWsTokens (pyStrip seg) with
  | nil => rw [ht] at h; exact absurd h (by simp)
  | cons a rest =>
    rw [ht] at h
    cases rest with
    | nil =>
      simp only [Option.some.injEq, Prod.mk.injEq] at h
      rw [← h.2]
      simp
    | cons b r =>
      simp only [Option.some.injEq, Prod.mk.injEq] at h
      rw [← h.2]
      exact dedupKeepFirst_ne_nil _ (by simp)

theorem parseDirectives_val_ne (segs : List (List Char)) (acc p : Policy)
    (hacc : ∀ kv ∈ acc, kv.2 ≠ []) (h : parseDirectives segs acc = some p) :
    ∀ kv ∈ p, kv.2 ≠ [] := by
  induction segs generalizing acc with
  | nil =>
    unfold parseDirectives at h
    simp only [Option.some.injEq] at h
    subst h
    intro kv hkv
    exact hacc kv (List.mem_reverse.mp hkv)
  | cons seg rest ih =>
    unfold parseDirectives at h
    cases hps : parseSegment seg with
    | none => rw [hps] at h; exact absurd h (by simp)
    | some dv =>
      obtain ⟨d, vs⟩ := dv
      simp only [hps] at h
      by_cases hd : acc.any (fun kv => kv.1 == d)
      · rw [if_pos hd] at h
        exact absurd h (by simp)
      · rw [if_neg hd] at h
        refine ih ((d, vs) :: acc) ?_ h
        intro kv hkv
        rcases List.mem_cons.mp hkv with hkv | hkv
        · rw [hkv]
          exact parseSegment_val_ne seg d vs hps
        · exact hacc kv hkv

theorem parse_csp_val_ne (s : String) (p : Policy) (h : __parse_csp s = some p) :
    ∀ kv ∈ p, kv.2 ≠ [] := by
  unfold __parse_csp at h
  dsimp only at h
  split at h
  · exact absurd h (by simp)
  · exact parseDirectives_val_ne _ [] p (by simp) h

theorem cspParsedPair_val_ne (r : AutoResponse) (hp ep : Option Policy)
    (h : cspParsedPair r = some (hp, ep)) :
    (∀ q, hp = some q → ∀ kv ∈ q, kv.2 ≠ []) ∧
    (∀ q, ep = some q → ∀ kv ∈ q, kv.2 ≠ []) := by
  unfold cspParsedPair at h
  cases hch : r.cspHeader with
  | none =>
    simp only [hch] at h
    cases hce : r.cspEquiv with
    | none =>
      simp only [hce] at h
      simp only [Option.some.injEq, Prod.mk.injEq] at h
      constructor
      · intro q hq; rw [← h.1] at hq; exact absurd hq (by simp)
      · intro q hq; rw [← h.2] at hq; exact absurd hq (by simp)
    | some e =>
      simp only [hce] at h
      cases hpe : __parse_csp e with
      | none => simp only [hpe] at h; exact absurd h (by simp)
      | some pe =>
        simp only [hpe] at h
        simp only [Option.some.injEq, Prod.mk.injEq] at h
        constructor
        · intro q hq; rw [← h.1] at hq; exact absurd hq (by simp)
        · intro q hq
          rw [← h.2] at hq
          injection hq with hq2
          exact hq2 ▸ parse_csp_val_ne e pe hpe
  | some hh =>
    simp only [hch] at h
    cases hph : __parse_csp hh with
    | none => simp only [hph] at h; exact absurd h (by simp)
    | some ph =>
      simp only [hph] at h
      cases hce : r.cspEquiv with
      | none =>
        simp only [hce] at h
        simp only [Option.some.injEq, Prod.mk.injEq] at h
        constructor
        · intro q hq
          rw [← h.1] at hq
          injection hq with hq2
          exact hq2 ▸ parse_csp_val_ne hh ph hph
        · intro q hq; rw [← h.2] at hq; exact absurd hq (by simp)
      | some e =>
        simp only [hce] at h
        cases hpe : __parse_csp e with
        | none => simp only [hpe] at h; exact absurd h (by simp)
        | some pe =>
          simp only [hpe] at h
          simp only [Option.some.injEq, Prod.mk.injEq] at h
          constructor
          · intro q hq
            rw [← h.1] at hq
            injection hq with hq2
            exact hq2 ▸ parse_csp_val_ne hh ph hph
          · intro q hq
            rw [← h.2] at hq
            injection hq with hq2
            exact hq2 ▸ parse_csp_val_ne e pe hpe

theorem mergeP_val_ne (q1 q2 : Policy) (h1 : ∀ kv ∈ q1, kv.2 ≠ []) (h2 : ∀ kv ∈ q2, kv.2 ≠ []) :
    ∀ kv ∈ mergeP q1 q2, kv.2 ≠ [] := by
  intro kv hkv
  unfold mergeP at hkv
  rcases List.mem_map.mp hkv with ⟨k, hk, hke⟩
  rw [← hke]
  apply dedupKeepFirst_ne_nil
  have hk2 := (mem_dedupKeepFirst _ _).mp hk
  rcases List.mem_append.mp hk2 with hk3 | hk3
  · have hs : (lookupP q1 k).isSome := (lookupP_isSome_iff q1 k).mpr hk3
    cases hl : lookupP q1 k with
    | none => rw [hl] at hs; exact absurd hs (by simp)
    | some v =>
      rcases lookupP_mem q1 k v hl with ⟨kv2, hkv2, hv⟩
      have : v ≠ [] := hv ▸ h1 kv2 hkv2
      intro hc
      rcases List.append_eq_nil.mp hc with ⟨ha, _⟩
      exact this (by simpa using ha)
  · have hs : (lookupP q2 k).isSome := (lookupP_isSome_iff q2 k).mpr hk3
    cases hl : lookupP q2 k with
    | none => rw [hl] at hs; exact absurd hs (by simp)
    | some v =>
      rcases lookupP_mem q2 k v hl with ⟨kv2, hkv2, hv⟩
      have : v ≠ [] := hv ▸ h2 kv2 hkv2
      intro hc
      rcases List.append_eq_nil.mp hc with ⟨_, hb⟩
      exact this (by simpa using hb)

theorem merged_val_ne (r : AutoResponse) (m : Policy) (h : cspMergedPolicy r = some m) :
    ∀ kv ∈ m, kv.2 ≠ [] := by
  unfold cspMergedPolicy at h
  cases hp : cspParsedPair r with
  | none => rw [hp] at h; exact absurd h (by simp)
  | some pq =>
    obtain ⟨hpol, epol⟩ := pq
    simp only [hp] at h
    have hinv := cspParsedPair_val_ne r hpol epol hp
    by_cases hb : truthyPol hpol && truthyPol epol
    · rw [if_pos hb] at h
      simp only [Option.some.injEq] at h
      subst h
      cases hpol with
      | none => simp [truthyPol] at hb
      | some q1 =>
        cases epol with
        | none => simp [truthyPol] at hb
        | some q2 =>
          exact mergeP_val_ne q1 q2 (hinv.1 q1 rfl) (hinv.2 q2 rfl)
    · rw [if_neg hb] at h
      by_cases hth : truthyPol hpol
      · rw [if_pos hth] at h
        cases hpol with
        | none => simp [truthyPol] at hth
        | some q1 =>
          simp only [Option.some.injEq] at h
          subst h
          exact hinv.1 q1 rfl
      · rw [if_neg hth] at h
        by_cases hte : truthyPol epol
        · rw [if_pos hte] at h
          cases epol with
          | none => simp [truthyPol] at hte
          | some q2 =>
            simp only [Option.some.injEq] at h
            subst h
            exact hinv.2 q2 rfl
        · rw [if_neg hte] at h
          exact absurd h (by simp)

theorem ruleChain_congr (s1 o1 st1 : List (List Char)) (h1 : Bool) (d1 : Option (List (List Char)))
    (s2 o2 st2 : List (List Char)) (h2 : Bool) (d2 : Option (List (List Char))) (b : Bool)
    (e1 : (intersects s1 (broadSources ++ inlineSources) || intersects o1 broadSources) =
          (intersects s2 (broadSources ++ inlineSources) || intersects o2 broadSources))
    (e2 : h1 = h2)
    (e3 : (s1 ++ st1).contains evalTok = (s2 ++ st2).contains evalTok)
    (e4 : intersects st1 (broadSources ++ inlineSources) =
          intersects st2 (broadSources ++ inlineSources))
    (e5 : isNoneSet d1 = isNoneSet d2) :
    ruleChain s1 o1 st1 h1 d1 b = ruleChain s2 o2 st2 h2 d2 b := by
  unfold ruleChain
  rw [e1, e2, e3, e4, e5]

theorem isNoneSet_of_ui (u : List (List Char)) (hui : u.contains uiTok = true) :
    isNoneSet (some u) = false := by
  have hmem : uiTok ∈ u := List.mem_of_elem_eq_true hui
  unfold isNoneSet
  have hall : u.all (fun t => t == noneToken) = false := by
    rw [List.all_eq_false]
    exact ⟨uiTok, hmem, by simp; decide⟩
  simp [hall]

theorem isNoneSet_removeUI_of_nonce (u : List (List Char)) (hn : u.any hashOrNonce = true) :
    isNoneSet (some (removeUI u)) = false := by
  rcases List.any_eq_true.mp hn with ⟨t, ht, hhn⟩
  have ht1 : t ≠ uiTok := fun h => by rw [h] at hhn; exact absurd hhn (by decide)
  have ht2 : t ∈ removeUI u := (mem_removeUI u t ht1).mpr ht
  have ht3 : (t == noneToken) = false := by
    apply beq_eq_false_iff_ne.mpr
    intro h; rw [h] at hhn; exact absurd hhn (by decide)
  unfold isNoneSet
  have hall : (removeUI u).all (fun t => t == noneToken) = false := by
    rw [List.all_eq_false]
    exact ⟨t, ht2, by simp [ht3]⟩
  simp [hall]

theorem cspClassify_eq_amended (m : Policy) (b : Bool) (hNE : ∀ kv ∈ m, kv.2 ≠ []) :
    (cspClassify m b).1 = amendedChain m b := by
  have hTruthy : ∀ d, truthyOpt (lookupP m d) = (lookupP m d).isSome := by
    intro d
    cases hl : lookupP m d with
    | none => rfl
    | some v =>
      rcases lookupP_mem m d v hl with ⟨kv, hkv, hv⟩
      have hvne : v ≠ [] := hv ▸ hNE kv hkv
      have hve : v.isEmpty = false := by
        cases v with
        | nil => exact absurd rfl hvne
        | cons a l => rfl
      simp [truthyOpt, hve]
  have hEff : ∀ d, derefP m (pickRef m d) = claimEffective m d := by
    intro d
    unfold pickRef claimEffective
    rw [hTruthy, hTruthy]
    cases hl : lookupP m d with
    | some v => simp [derefP, hl]
    | none =>
      cases hld : lookupP m defaultSrcTok with
      | some w => simp [derefP, hl, hld]
      | none => simp [derefP, hl, hld]
  by_cases hf : ((claimEffective m scriptSrcTok).any hashOrNonce &&
      (claimEffective m scriptSrcTok).contains uiTok) = true
  · -- the removal rule fires
    cases hS : lookupP m scriptSrcTok with
    | some v =>
      have hpS : pickRef m scriptSrcTok = some scriptSrcTok := by
        unfold pickRef
        rw [hTruthy, hS]
        simp
      have hE : claimEffective m scriptSrcTok = v := by
        unfold claimEffective
        rw [hS]
      have hOther : ∀ d, d ≠ scriptSrcTok → defaultSrcTok ≠ scriptSrcTok →
          derefP (setStoredAt m scriptSrcTok removeUI) (pickRef m d) = claimEffective m d := by
        intro d hd hdef
        unfold pickRef claimEffective
        rw [hTruthy, hTruthy]
        cases hl : lookupP m d with
        | some w =>
          simp only [hl, Option.isSome_some, if_pos, derefP]
          rw [lookupP_setStoredAt]
          simp [hd, hl]
        | none =>
          simp only [hl, Option.isSome_none, Bool.false_eq_true, if_neg, not_false_iff]
          cases hld : lookupP m defaultSrcTok with
          | some w =>
            simp only [hld, Option.isSome_some, if_pos, derefP]
            rw [lookupP_setStoredAt]
            simp [hdef, hld]
          | none => simp [derefP, hld]
      have eqC : (cspClassify m b).1 =
          ruleChain (removeUI v) (claimEffective m objectSrcTok) (claimEffective m styleSrcTok)
            (m.any (fun kv => kv.2.any (fun t => hasSeq "http:".data t)))
            (lookupP m defaultSrcTok) b := by
        unfold cspClassify
        dsimp only
        rw [hpS]
        have hss0 : derefP m (some scriptSrcTok) = v := by simp [derefP, hS]
        rw [hss0]
        have hfv : (v.any hashOrNonce && v.contains uiTok) = true := hE ▸ hf
        rw [if_pos hfv]
        have h1 : derefP (setStoredAt m scriptSrcTok removeUI) (some scriptSrcTok) =
            removeUI v := by
          simp [derefP, lookupP_setStoredAt, hS]
        rw [h1, hOther objectSrcTok (by decide) (by decide),
          hOther styleSrcTok (by decide) (by decide), any_http_setStoredAt,
          lookupP_setStoredAt]
        rw [if_neg (by decide : ¬(defaultSrcTok = scriptSrcTok))]
      have eqA : amendedChain m b =
          ruleChain (removeUI v) (claimEffective m objectSrcTok) (claimEffective m styleSrcTok)
            (m.any (fun kv => kv.2.any (fun t => hasSeq "http:".data t)))
            (lookupP m defaultSrcTok) b := by
        unfold amendedChain
        dsimp only
        rw [if_pos hf]
        have hshared : ((lookupP m scriptSrcTok).isNone && (lookupP m styleSrcTok).isNone &&
            (lookupP m defaultSrcTok).isSome) = false := by
          rw [hS]
          simp
        rw [hshared]
        simp [hE]
      rw [eqC, eqA]
    | none =>
      cases hD : lookupP m defaultSrcTok with
      | none =>
        have hE : claimEffective m scriptSrcTok = ["*".data] := by
          unfold claimEffective
          rw [hS, hD]
        rw [hE] at hf
        exact absurd hf (by decide)
      | some u =>
        have hpS : pickRef m scriptSrcTok = some defaultSrcTok := by
          unfold pickRef
          rw [hTruthy, hTruthy, hS, hD]
          simp
        have hE : claimEffective m scriptSrcTok = u := by
          unfold claimEffective
          rw [hS, hD]
        rw [hE] at hf
        rcases Bool.and_eq_true_iff.mp hf with ⟨hfn, hfu⟩
        have h1 : derefP (setStoredAt m defaultSrcTok removeUI) (some defaultSrcTok) =
            removeUI u := by
          simp [derefP, lookupP_setStoredAt, hD]
        have hd5 : lookupP (setStoredAt m defaultSrcTok removeUI) defaultSrcTok =
            some (removeUI u) := by
          rw [lookupP_setStoredAt]
          simp [hD]
        have e5 : isNoneSet (some (removeUI u)) = isNoneSet (some u) := by
          rw [isNoneSet_removeUI_of_nonce u hfn, isNoneSet_of_ui u hfu]
      -- object and style sub-splits
        cases hO : lookupP m objectSrcTok with
        | some w =>
          have hpO : pickRef m objectSrcTok = some objectSrcTok := by
            unfold pickRef
            rw [hTruthy, hO]
            simp
          have hdO : derefP (setStoredAt m defaultSrcTok removeUI) (some objectSrcTok) = w := by
            simp [derefP, lookupP_setStoredAt, hO, (by decide : ¬(objectSrcTok = defaultSrcTok))]
          have hEO : claimEffective m objectSrcTok = w := by
            unfold claimEffective
            rw [hO]
          cases hSt : lookupP m styleSrcTok with
          | some z =>
            have hpSt : pickRef m styleSrcTok = some styleSrcTok := by
              unfold pickRef
              rw [hTruthy, hSt]
              simp
            have hdSt : derefP (setStoredAt m defaultSrcTok removeUI) (some styleSrcTok) = z := by
              simp [derefP, lookupP_setStoredAt, hSt, (by decide : ¬(styleSrcTok = defaultSrcTok))]
            have hESt : claimEffective m styleSrcTok = z := by
              unfold claimEffective
              rw [hSt]
            have eqC : (cspClassify m b).1 =
                ruleChain (removeUI u) w z
                  (m.any (fun kv => kv.2.any (fun t => hasSeq "http:".data t)))
                  (some (removeUI u)) b := by
              unfold cspClassify
              dsimp only
              rw [hpS, hpO, hpSt]
              have hss0 : derefP m (some defaultSrcTok) = u := by simp [derefP, hD]
              rw [hss0]
              rw [if_pos (by rw [Bool.and_eq_true_iff]; exact ⟨hfn, hfu⟩)]
              rw [h1, hdO, hdSt, any_http_setStoredAt, hd5]
            have eqA : amendedChain m b =
                ruleChain (removeUI u) w z
                  (m.any (fun kv => kv.2.any (fun t => hasSeq "http:".data t)))
                  (some u) b := by
              unfold amendedChain
              dsimp only
              rw [hE, if_pos (by rw [Bool.and_eq_true]; exact ⟨hfn, hfu⟩)]
              have hshared : ((lookupP m scriptSrcTok).isNone && (lookupP m styleSrcTok).isNone &&
                  (lookupP m defaultSrcTok).isSome) = false := by
                rw [hSt]
                simp
              rw [hshared, hEO, hESt, hD]
              simp
            rw [eqC, eqA]
            exact ruleChain_congr _ _ _ _ _ _ _ _ _ _ _ rfl rfl rfl rfl e5
          | none =>
            have hpSt : pickRef m styleSrcTok = some defaultSrcTok := by
              unfold pickRef
              rw [hTruthy, hTruthy, hSt, hD]
              simp
            have hESt : claimEffective m styleSrcTok = u := by
              unfold claimEffective
              rw [hSt, hD]
            have eqC : (cspClassify m b).1 =
                ruleChain (removeUI u) w (removeUI u)
                  (m.any (fun kv => kv.2.any (fun t => hasSeq "http:".data t)))
                  (some (removeUI u)) b := by
              unfold cspClassify
              dsimp only
              rw [hpS, hpO, hpSt]
              have hss0 : derefP m (some defaultSrcTok) = u := by simp [derefP, hD]
              rw [hss0]
              rw [if_pos (by rw [Bool.and_eq_true_iff]; exact ⟨hfn, hfu⟩)]
              rw [h1, hdO, any_http_setStoredAt, hd5]
            have eqA : amendedChain m b =
                ruleChain (removeUI u) w (removeUI u)
                  (m.any (fun kv => kv.2.any (fun t => hasSeq "http:".data t)))
                  (some u) b := by
              unfold amendedChain
              dsimp only
              rw [hE, if_pos (by rw [Bool.and_eq_true]; exact ⟨hfn, hfu⟩)]
              have hshared : ((lookupP m scriptSrcTok).isNone && (lookupP m styleSrcTok).isNone &&
                  (lookupP m defaultSrcTok).isSome) = true := by
                rw [hS, hSt, hD]
                simp
              rw [hshared, Bool.and_true, if_pos hf, hEO, hESt, hD]
            rw [eqC, eqA]
            exact ruleChain_congr _ _ _ _ _ _ _ _ _ _ _ rfl rfl rfl rfl e5
        | none =>
          have hpO : pickRef m objectSrcTok = some defaultSrcTok := by
            unfold pickRef
            rw [hTruthy, hTruthy, hO, hD]
            simp
          have hEO : claimEffective m objectSrcTok = u := by
            unfold claimEffective
            rw [hO, hD]
          have e1 : (intersects (removeUI u) (broadSources ++ inlineSources) ||
              intersects (removeUI u) broadSources) =
              (intersects (removeUI u) (broadSources ++ inlineSources) ||
              intersects u broadSources) := by
            unfold intersects
            rw [any_removeUI u (fun t => broadSources.contains t) (by decide)]
          cases hSt : lookupP m styleSrcTok with
          | some z =>
            have hpSt : pickRef m styleSrcTok = some styleSrcTok := by
              unfold pickRef
              rw [hTruthy, hSt]
              simp
            have hdSt : derefP (setStoredAt m defaultSrcTok removeUI) (some styleSrcTok) = z := by
              simp [derefP, lookupP_setStoredAt, hSt, (by decide : ¬(styleSrcTok = defaultSrcTok))]
            have hESt : claimEffective m styleSrcTok = z := by
              unfold claimEffective
              rw [hSt]
            have eqC : (cspClassify m b).1 =
                ruleChain (removeUI u) (removeUI u) z
                  (m.any (fun kv => kv.2.any (fun t => hasSeq "http:".data t)))
                  (some (removeUI u)) b := by
              unfold cspClassify
              dsimp only
              rw [hpS, hpO, hpSt]
              have hss0 : derefP m (some defaultSrcTok) = u := by simp [derefP, hD]
              rw [hss0]
              rw [if_pos (by rw [Bool.and_eq_true_iff]; exact ⟨hfn, hfu⟩)]
              rw [h1, hdSt, any_http_setStoredAt, hd5]
            have eqA : amendedChain m b =
                ruleChain (removeUI u) u z
                  (m.any (fun kv => kv.2.any (fun t => hasSeq "http:".data t)))
                  (some u) b := by
              unfold amendedChain
              dsimp only
              rw [hE, if_pos (by rw [Bool.and_eq_true]; exact ⟨hfn, hfu⟩)]
              have hshared : ((lookupP m scriptSrcTok).isNone && (lookupP m styleSrcTok).isNone &&
                  (lookupP m defaultSrcTok).isSome) = false := by
                rw [hSt]
                simp
              rw [hshared, hEO, hESt, hD]
              simp
            rw [eqC, eqA]
            exact ruleChain_congr _ _ _ _ _ _ _ _ _ _ _ e1 rfl rfl rfl e5
          | none =>
            have hpSt : pickRef m styleSrcTok = some defaultSrcTok := by
              unfold pickRef
              rw [hTruthy, hTruthy, hSt, hD]
              simp
            have hESt : claimEffective m styleSrcTok = u := by
              unfold claimEffective
              rw [hSt, hD]
            have eqC : (cspClassify m b).1 =
                ruleChain (removeUI u) (removeUI u) (removeUI u)
                  (m.any (fun kv => kv.2.any (fun t => hasSeq "http:".data t)))
                  (some (removeUI u)) b := by
              unfold cspClassify
              dsimp only
              rw [hpS, hpO, hpSt]
              have hss0 : derefP m (some defaultSrcTok) = u := by simp [derefP, hD]
              rw [hss0]
              rw [if_pos (by rw [Bool.and_eq_true_iff]; exact ⟨hfn, hfu⟩)]
              rw [h1, any_http_setStoredAt, hd5]
            have eqA : amendedChain m b =
                ruleChain (removeUI u) u (removeUI u)
                  (m.any (fun kv => kv.2.any (fun t => hasSeq "http:".data t)))
                  (some u) b := by
              unfold amendedChain
              dsimp only
              rw [hE, if_pos (by rw [Bool.and_eq_true]; exact ⟨hfn, hfu⟩)]
              have hshared : ((lookupP m scriptSrcTok).isNone && (lookupP m styleSrcTok).isNone &&
                  (lookupP m defaultSrcTok).isSome) = true := by
                rw [hS, hSt, hD]
                simp
              rw [hshared, Bool.and_true, if_pos hf, hEO, hESt, hD]
            rw [eqC, eqA]
            exact ruleChain_congr _ _ _ _ _ _ _ _ _ _ _ e1 rfl rfl rfl e5
  · -- the removal rule does not fire
    have hf0 : ((claimEffective m scriptSrcTok).any hashOrNonce &&
        (claimEffective m scriptSrcTok).contains uiTok) = false := by
      rw [← Bool.not_eq_true]
      exact hf
    have eqC : (cspClassify m b).1 =
        ruleChain (claimEffective m scriptSrcTok) (claimEffective m objectSrcTok)
          (claimEffective m styleSrcTok)
          (m.any (fun kv => kv.2.any (fun t => hasSeq "http:".data t)))
          (lookupP m defaultSrcTok) b := by
      unfold cspClassify
      dsimp only
      rw [hEff scriptSrcTok, hf0]
      simp only [Bool.false_eq_true, if_neg, not_false_iff]
      rw [hEff scriptSrcTok, hEff objectSrcTok, hEff styleSrcTok]
    have eqA : amendedChain m b =
        ruleChain (claimEffective m scriptSrcTok) (claimEffective m objectSrcTok)
          (claimEffective m styleSrcTok)
          (m.any (fun kv => kv.2.any (fun t => hasSeq "http:".data t)))
          (lookupP m defaultSrcTok) b := by
      unfold amendedChain
      dsimp only
      rw [hf0]
      simp
    rw [eqC, eqA]

/-- **C1 counterexample**: on the policy `default-src 'unsafe-inline'
'nonce-abc'`, the claim's chain (removal confined to the working
`script-src`) classifies rule 4 as
`csp-implemented-with-unsafe-inline-in-style-src-only`, but the evaluator
returns `csp-implemented-with-no-unsafe`: the in-place removal empties
`'unsafe-inline'` out of the shared `default-src` set that the effective
`style-src` also references. -/
theorem C1_alias_counterexample :
    cspMergedPolicy ctxNonceDefault.auto =
      some [("default-src".data, ["\x27unsafe-inline\x27".data, "\x27nonce-abc\x27".data])] ∧
    (content_security_policy ctxNonceDefault "x").result = "csp-implemented-with-no-unsafe" ∧
    claimChain [("default-src".data, ["\x27unsafe-inline\x27".data, "\x27nonce-abc\x27".data])]
      true = "csp-implemented-with-unsafe-inline-in-style-src-only" := by decide

/-- **C1 amended**: for every context whose CSP sources merge successfully,
the evaluator's result code is the six-rule ordered chain on the merged
policy, with the removal rule amended to act through the shared
`default-src` set (reaching the effective `style-src`) whenever `script-src`
falls back to it. -/
theorem C1_chain (ctx : ScanContext) (e : String) (m : Policy)
    (hm : cspMergedPolicy ctx.auto = some m) :
    (content_security_policy ctx e).result = amendedChain m (ctx.auto.urlScheme == "https") := by
  have hNE := merged_val_ne ctx.auto m hm
  unfold content_security_policy
  cases hp : cspParsedPair ctx.auto with
  | none =>
    unfold cspMergedPolicy at hm
    rw [hp] at hm
    exact absurd hm (by simp)
  | some pq =>
    simp only [hp, hm]
    exact cspClassify_eq_amended m _ hNE

/-- Witness for C1 as amended, at the shared-`default-src` policy. -/
theorem C1_chain_witness :
    (content_security_policy ctxNonceDefault "x").result =
      amendedChain [("default-src".data, ["\x27unsafe-inline\x27".data, "\x27nonce-abc\x27".data])]
        (ctxNonceDefault.auto.urlScheme == "https") :=
  C1_chain ctxNonceDefault "x" _ (by decide)

/-- **C8 amended**: whenever the CSP evaluator's (size-capped) `data` output
is a dictionary containing `frame-ancestors`, `x_frame_options` reports
`x-frame-options-implemented-via-csp` with pass true, whatever the raw
X-Frame-Options header; the cap can suppress the dictionary, in which case
no override happens. -/
theorem C8_frame_ancestors (ctx : ScanContext) (e : String) (p : Policy)
    (hd : (content_security_policy ctx "csp-implemented-with-no-unsafe").data = some p)
    (hfa : p.any (fun kv => kv.1 == "frame-ancestors".data) = true) :
    (x_frame_options ctx e).result = "x-frame-options-implemented-via-csp" ∧
    (x_frame_options ctx e).pass = true := by
  have hpne : p.isEmpty = false := by
    rcases List.any_eq_true.mp hfa with ⟨kv, hkv, _⟩
    cases p with
    | nil => exact absurd hkv (List.not_mem_nil kv)
    | cons a l => rfl
  constructor <;> simp [x_frame_options, hd, hpne, hfa]

/-- Witness for C8 as amended at a small `frame-ancestors` policy. -/
theorem C8_frame_ancestors_witness :
    (x_frame_options (⟨⟨some "frame-ancestors \x27none\x27", none, none, none, "https"⟩,
      none, none, none, []⟩ : ScanContext) "x").result =
      "x-frame-options-implemented-via-csp" :=
  (C8_frame_ancestors ⟨⟨some "frame-ancestors \x27none\x27", none, none, none, "https"⟩,
    none, none, none, []⟩ "x" [("frame-ancestors".data, ["\x27none\x27".data])]
    (by decide) (by decide)).1

theorem dropWhile_append_left (p : Char → Bool) (xs ys : List Char)
    (h : xs.dropWhile p ≠ []) : (xs ++ ys).dropWhile p = xs.dropWhile p ++ ys := by
  induction xs with
  | nil => exact absurd rfl h
  | cons x xs ih =>
    by_cases hp : p x
    · rw [List.dropWhile_cons_of_pos hp] at h
      rw [List.cons_append, List.dropWhile_cons_of_pos hp, List.dropWhile_cons_of_pos hp]
      exact ih h
    · rw [List.cons_append, List.dropWhile_cons_of_neg hp, List.dropWhile_cons_of_neg hp,
        List.cons_append]

theorem dropWhile_replicate_neg (p : Char → Bool) (n : Nat) (a : Char) (h : p a = false) :
    (List.replicate n a).dropWhile p = List.replicate n a := by
  cases n with
  | zero => rfl
  | succ n =>
    rw [List.replicate_succ, List.dropWhile_cons_of_neg (by simp [h])]

theorem any_replicate_false (q : List Char → Bool) (n : Nat) (a : List Char)
    (h : q a = false) : (List.replicate n a).any q = false := by
  induction n with
  | zero => rfl
  | succ n ih => rw [List.replicate_succ, List.any_cons, h, ih]; rfl

theorem anyc_replicate_false (q : Char → Bool) (n : Nat) (a : Char)
    (h : q a = false) : (List.replicate n a).any q = false := by
  induction n with
  | zero => rfl
  | succ n ih => rw [List.replicate_succ, List.any_cons, h, ih]; rfl

theorem leadsWith_replicate_a (pat : List Char) (c : Char) (ps : List Char)
    (hpat : pat = c :: ps) (hc : c ≠ 'a') (n : Nat) :
    leadsWith pat (List.replicate n 'a') = false := by
  subst hpat
  cases n with
  | zero => rfl
  | succ n =>
    rw [List.replicate_succ]
    unfold leadsWith
    simp [hc]

theorem hasSeq_replicate_a (pat : List Char) (c : Char) (ps : List Char)
    (hpat : pat = c :: ps) (hc : c ≠ 'a') (n : Nat) :
    hasSeq pat (List.replicate n 'a') = false := by
  induction n with
  | zero =>
    subst hpat
    rfl
  | succ n ih =>
    rw [List.replicate_succ]
    unfold hasSeq
    rw [← List.replicate_succ, leadsWith_replicate_a pat c ps hpat hc, ih]
    rfl

theorem wsAux_nonspace (c : Char) (hc : isPySpace c = false) (cs cur : List Char) :
    wsSplitAux (c :: cs) cur = wsSplitAux cs (c :: cur) := by
  simp [wsSplitAux, hc]

theorem wsAux_space_emit (c : Char) (hc : isPySpace c = true) (cs cur : List Char)
    (hcur : cur ≠ []) :
    wsSplitAux (c :: cs) cur = cur.reverse :: wsSplitAux cs [] := by
  have h2 : cur.isEmpty = false := by
    cases cur with
    | nil => exact absurd rfl hcur
    | cons a l => rfl
  simp [wsSplitAux, hc, h2]

theorem wsAux_replicate_a (n : Nat) (cur : List Char) (hcur : cur ≠ []) :
    wsSplitAux (List.replicate n 'a') cur = [cur.reverse ++ List.replicate n 'a'] := by
  induction n generalizing cur with
  | zero =>
    have h2 : cur.isEmpty = false := by
      cases cur with
      | nil => exact absurd rfl hcur
      | cons a l => rfl
    simp [wsSplitAux, h2]
  | succ n ih =>
    rw [List.replicate_succ, wsAux_nonspace 'a' (by decide), ih ('a' :: cur) (by simp)]
    simp

theorem splitChar_ne_nil (sep : Char) (l : List Char) : splitChar sep l ≠ [] := by
  induction l with
  | nil => simp [splitChar]
  | cons c cs ih =>
    unfold splitChar
    by_cases h : c = sep
    · simp [h]
    · simp only [h, if_neg, not_false_iff]
      cases hs : splitChar sep cs with
      | nil => exact absurd hs ih
      | cons s ss => simp

theorem splitChar_sep_cons (sep : Char) (ys : List Char) :
    splitChar sep (sep :: ys) = [] :: splitChar sep ys := by
  simp [splitChar]

theorem splitChar_no_sep (sep : Char) (l : List Char) (h : ∀ c ∈ l, c ≠ sep) :
    splitChar sep l = [l] := by
  induction l with
  | nil => rfl
  | cons c cs ih =>
    unfold splitChar
    have hc : c ≠ sep := h c (List.mem_cons_self _ _)
    simp only [hc, if_neg, not_false_iff]
    rw [ih (fun x hx => h x (List.mem_cons_of_mem _ hx))]

theorem splitChar_append_no_sep (sep : Char) (xs ys : List Char) (h : ∀ c ∈ xs, c ≠ sep)
    (s : List Char) (ss : List (List Char)) (hys : splitChar sep ys = s :: ss) :
    splitChar sep (xs ++ ys) = (xs ++ s) :: ss := by
  induction xs with
  | nil => simpa using hys
  | cons x xs ih =>
    rw [List.cons_append]
    unfold splitChar
    have hx : x ≠ sep := h x (List.mem_cons_self _ _)
    simp only [hx, if_neg, not_false_iff]
    rw [ih (fun c hc => h c (List.mem_cons_of_mem _ hc))]
    rfl

theorem isEmpty_append_left (xs ys : List Char) (h : xs ≠ []) : (xs ++ ys).isEmpty = false := by
  cases xs with
  | nil => exact absurd rfl h
  | cons a l => rfl

theorem wsAux_replicate_a_nil (n : Nat) (h : n ≠ 0) :
    wsSplitAux (List.replicate n 'a') [] = [List.replicate n 'a'] := by
  cases n with
  | zero => exact absurd rfl h
  | succ n =>
    rw [List.replicate_succ, wsAux_nonspace 'a' (by decide), wsAux_replicate_a n ['a'] (by simp)]
    simp [List.replicate_succ]

theorem bigToken_ne_nil : bigToken ≠ [] := by
  unfold bigToken
  intro h
  have h2 := congrArg List.length h
  rw [List.length_replicate] at h2
  exact absurd h2 (by decide)

theorem bigHdr_strip :
    pyStrip ("frame-ancestors x; default-src ".data ++ bigToken) =
      "frame-ancestors x; default-src ".data ++ bigToken := by
  unfold pyStrip
  have h1 : ("frame-ancestors x; default-src ".data ++ bigToken).dropWhile isPySpace =
      "frame-ancestors x; default-src ".data ++ bigToken := by
    rw [dropWhile_append_left _ _ _ (by decide)]
    rw [show ("frame-ancestors x; default-src ".data.dropWhile isPySpace) =
      "frame-ancestors x; default-src ".data from by decide]
  rw [h1, List.reverse_append]
  have h2 : bigToken.reverse = bigToken := by
    unfold bigToken
    exact List.reverse_replicate 33000 'a'
  rw [h2]
  have h3 : (bigToken ++ "frame-ancestors x; default-src ".data.reverse).dropWhile isPySpace =
      bigToken ++ "frame-ancestors x; default-src ".data.reverse := by
    rw [dropWhile_append_left _ _ _ (by
      rw [show bigToken.dropWhile isPySpace = bigToken from
        dropWhile_replicate_neg isPySpace 33000 'a' (by decide)]
      exact bigToken_ne_nil)]
    rw [show bigToken.dropWhile isPySpace = bigToken from
      dropWhile_replicate_neg isPySpace 33000 'a' (by decide)]
  rw [h3, List.reverse_append, List.reverse_reverse, h2]

theorem bigSeg_strip :
    pyStrip (" default-src ".data ++ bigToken) = "default-src ".data ++ bigToken := by
  unfold pyStrip
  have h1 : (" default-src ".data ++ bigToken).dropWhile isPySpace =
      "default-src ".data ++ bigToken := by
    rw [dropWhile_append_left _ _ _ (by decide)]
    rw [show (" default-src ".data.dropWhile isPySpace) = "default-src ".data from by decide]
  rw [h1, List.reverse_append]
  have h2 : bigToken.reverse = bigToken := by
    unfold bigToken
    exact List.reverse_replicate 33000 'a'
  rw [h2]
  have h3 : (bigToken ++ "default-src ".data.reverse).dropWhile isPySpace =
      bigToken ++ "default-src ".data.reverse := by
    rw [dropWhile_append_left _ _ _ (by
      rw [show bigToken.dropWhile isPySpace = bigToken from
        dropWhile_replicate_neg isPySpace 33000 'a' (by decide)]
      exact bigToken_ne_nil)]
    rw [show bigToken.dropWhile isPySpace = bigToken from
      dropWhile_replicate_neg isPySpace 33000 'a' (by decide)]
  rw [h3, List.reverse_append, List.reverse_reverse, h2]

theorem bigSeg_tokens :
    pyWsTokens ("default-src ".data ++ bigToken) = ["default-src".data, bigToken] := by
  unfold pyWsTokens
  rw [show "default-src ".data ++ bigToken =
    'd' :: 'e' :: 'f' :: 'a' :: 'u' :: 'l' :: 't' :: '-' :: 's' :: 'r' :: 'c' :: ' ' ::
      bigToken from rfl]
  rw [wsAux_nonspace 'd' (by decide), wsAux_nonspace 'e' (by decide),
    wsAux_nonspace 'f' (by decide), wsAux_nonspace 'a' (by decide),
    wsAux_nonspace 'u' (by decide), wsAux_nonspace 'l' (by decide),
    wsAux_nonspace 't' (by decide), wsAux_nonspace '-' (by decide),
    wsAux_nonspace 's' (by decide), wsAux_nonspace 'r' (by decide),
    wsAux_nonspace 'c' (by decide)]
  rw [wsAux_space_emit ' ' (by decide) bigToken _ (by decide)]
  rw [show bigToken = List.replicate 33000 'a' from rfl, wsAux_replicate_a_nil 33000 (by decide)]
  rfl

theorem parseSegment_two (seg d v : List Char) (h : pyWsTokens (pyStrip seg) = [d, v]) :
    parseSegment seg = some (d, dedupKeepFirst [lowerList v]) := by
  unfold parseSegment
  rw [h]
  rfl

theorem dedupKeepFirst_singleton (x : List Char) : dedupKeepFirst [x] = [x] := by
  simp [dedupKeepFirst]

theorem lowerList_bigToken : lowerList bigToken = bigToken := by
  unfold lowerList bigToken
  rw [List.map_replicate]
  rw [show Char.toLower 'a' = 'a' from by decide]

theorem bigSeg_parse :
    parseSegment (" default-src ".data ++ bigToken) =
      some ("default-src".data, [bigToken]) := by
  rw [parseSegment_two (" default-src ".data ++ bigToken) "default-src".data bigToken
    (by rw [bigSeg_strip, bigSeg_tokens])]
  rw [lowerList_bigToken, dedupKeepFirst_singleton]

theorem bigHdr_split :
    splitChar ';' ("frame-ancestors x; default-src ".data ++ bigToken) =
      ["frame-ancestors x".data, " default-src ".data ++ bigToken] := by
  have hbig : splitChar ';' bigToken = [bigToken] := by
    refine splitChar_no_sep ';' bigToken (fun c hc => ?_)
    rw [List.eq_of_mem_replicate hc]
    decide
  have hB : splitChar ';' (" default-src ".data ++ bigToken) =
      [" default-src ".data ++ bigToken] :=
    splitChar_append_no_sep ';' " default-src ".data bigToken (by decide) bigToken [] hbig
  have hP : "frame-ancestors x; default-src ".data =
      "frame-ancestors x".data ++ (';' :: " default-src ".data) := by decide
  have hP2 : "frame-ancestors x; default-src ".data ++ bigToken =
      "frame-ancestors x".data ++ (';' :: (" default-src ".data ++ bigToken)) := by
    conv_lhs => rw [hP]
    exact List.append_assoc _ _ _
  have hys : splitChar ';' (';' :: (" default-src ".data ++ bigToken)) =
      [] :: [" default-src ".data ++ bigToken] := by
    rw [splitChar_sep_cons, hB]
  rw [hP2, splitChar_append_no_sep ';' "frame-ancestors x".data _ (by decide) [] _ hys,
    List.append_nil]

theorem parseDirectives_cons_some (seg : List Char) (rest : List (List Char)) (acc : Policy)
    (d : List Char) (vs : List (List Char)) (h : parseSegment seg = some (d, vs))
    (hd : acc.any (fun kv => kv.1 == d) = false) :
    parseDirectives (seg :: rest) acc = parseDirectives rest ((d, vs) :: acc) := by
  conv_lhs => unfold parseDirectives
  rw [h]
  show (if acc.any (fun kv => kv.1 == d) then none else parseDirectives rest ((d, vs) :: acc)) =
    parseDirectives rest ((d, vs) :: acc)
  rw [hd]
  rfl

theorem bigDirectives :
    parseDirectives ["frame-ancestors x".data, " default-src ".data ++ bigToken] [] =
      some [("frame-ancestors".data, ["x".data]), ("default-src".data, [bigToken])] := by
  have e1 : parseSegment "frame-ancestors x".data =
      some ("frame-ancestors".data, ["x".data]) := by decide
  rw [parseDirectives_cons_some _ _ _ _ _ e1 (by decide)]
  rw [parseDirectives_cons_some _ _ _ _ _ bigSeg_parse (by decide)]
  rfl

theorem parse_csp_eq (s : String) (cs : List Char)
    (h : pyStrip (s.data.filter (fun c => !(c = '\r' || c = '\n'))) = cs) :
    __parse_csp s = (if cs.length < 6 || (!cs.isEmpty && cs.all isPySpace) then none
      else parseDirectives ((splitChar ';' cs).filter (fun seg => !seg.isEmpty)) []) := by
  subst h
  rfl

theorem bigHdr_parse :
    __parse_csp (String.mk ("frame-ancestors x; default-src ".data ++ bigToken)) =
      some [("frame-ancestors".data, ["x".data]), ("default-src".data, [bigToken])] := by
  have hfilter : ("frame-ancestors x; default-src ".data ++ bigToken).filter
      (fun c => !(c = '\r' || c = '\n')) =
      "frame-ancestors x; default-src ".data ++ bigToken := by
    rw [List.filter_append]
    rw [show "frame-ancestors x; default-src ".data.filter (fun c => !(c = '\r' || c = '\n')) =
      "frame-ancestors x; default-src ".data from by decide]
    rw [show bigToken = List.replicate 33000 'a' from rfl, List.filter_replicate]
    rw [if_pos (by decide)]
  have hC : pyStrip (((String.mk ("frame-ancestors x; default-src ".data ++ bigToken)).data).filter
      (fun c => !(c = '\r' || c = '\n'))) =
      "frame-ancestors x; default-src ".data ++ bigToken := by
    show pyStrip (("frame-ancestors x; default-src ".data ++ bigToken).filter
      (fun c => !(c = '\r' || c = '\n'))) = _
    rw [hfilter, bigHdr_strip]
  rw [parse_csp_eq _ _ hC]
  have hlen : ("frame-ancestors x; default-src ".data ++ bigToken).length = 33031 := by
    rw [List.length_append, show bigToken = List.replicate 33000 'a' from rfl,
      List.length_replicate]
    decide
  have hall : ("frame-ancestors x; default-src ".data ++ bigToken).all isPySpace = false := by
    rw [List.all_append]
    rw [show "frame-ancestors x; default-src ".data.all isPySpace = false from by decide]
    rfl
  rw [hlen, hall, Bool.and_false, Bool.or_false]
  rw [if_neg (by decide)]
  rw [bigHdr_split]
  have hfil : (["frame-ancestors x".data, " default-src ".data ++ bigToken].filter
      (fun seg => !seg.isEmpty)) =
      ["frame-ancestors x".data, " default-src ".data ++ bigToken] := by
    simp only [List.filter_cons, List.filter_nil]
    rw [show (!("frame-ancestors x".data.isEmpty)) = true from by decide]
    rw [isEmpty_append_left " default-src ".data bigToken (by decide)]
    simp
  rw [hfil, bigDirectives]

theorem cspParsedPair_header_only (h : String) (xfo xx : Option String) (sch : String) (p : Policy)
    (hp : __parse_csp h = some p) :
    cspParsedPair ⟨some h, none, xfo, xx, sch⟩ = some (some p, none) := by
  unfold cspParsedPair
  dsimp only
  rw [hp]

theorem cspMergedPolicy_header_only (r : AutoResponse) (p : Policy)
    (hpair : cspParsedPair r = some (some p, none)) (hne : p ≠ []) :
    cspMergedPolicy r = some p := by
  unfold cspMergedPolicy
  rw [hpair]
  have ht : truthyPol (some p) = true := by
    show (!p.isEmpty) = true
    cases p with
    | nil => exact absurd rfl hne
    | cons a l => rfl
  show (if truthyPol (some p) && false then some (mergeP p []) else
    if truthyPol (some p) then some p else if false then (none : Option Policy) else none) = some p
  rw [Bool.and_false, ht]
  rfl

theorem bigPair : cspParsedPair ctxBigCsp.auto = some (some bigPol, none) :=
  cspParsedPair_header_only (String.mk ("frame-ancestors x; default-src ".data ++ bigToken))
    none none "http" bigPol bigHdr_parse

theorem bigMerged : cspMergedPolicy ctxBigCsp.auto = some bigPol :=
  cspMergedPolicy_header_only ctxBigCsp.auto bigPol bigPair (by
    intro h
    exact absurd (congrArg List.length h) (by decide))

theorem csp_data_eq (ctx : ScanContext) (e : String) (m : Policy)
    (pr : Option Policy × Option Policy)
    (h1 : cspParsedPair ctx.auto = some pr) (h2 : cspMergedPolicy ctx.auto = some m) :
    (content_security_policy ctx e).data =
      some (if cspDataLen (cspClassify m (ctx.auto.urlScheme == "https")).2 < 32768
        then (cspClassify m (ctx.auto.urlScheme == "https")).2 else []) := by
  unfold content_security_policy
  rw [h1, h2]

theorem bigClassify_snd (b : Bool) : (cspClassify bigPol b).2 = bigPol := rfl

theorem sum_replicate_nat (n k : Nat) : (List.replicate n k).sum = n * k := by
  induction n with
  | zero => simp
  | succ n ih => rw [List.replicate_succ, List.sum_cons, ih, Nat.succ_mul]; omega

theorem reprQuote_bigToken : reprQuote bigToken = '\x27' := by
  unfold reprQuote
  rw [show bigToken = List.replicate 33000 'a' from rfl]
  rw [anyc_replicate_false (fun c => decide (c = '\x27')) 33000 'a' (by decide), Bool.false_and]
  rfl

theorem reprLen_eq (t : List Char) : reprLen t =
    2 + (t.map (fun c => if c = '\\' || c = reprQuote t then 2 else 1)).sum := rfl

theorem listReprLen_cons (v : List Char) (vs : List (List Char)) :
    listReprLen (v :: vs) = ((v :: vs).map (fun x => reprLen x + 2)).sum := rfl

theorem cspDataLen_cons (e : List Char × List (List Char)) (rest : Policy) :
    cspDataLen (e :: rest) =
      ((e :: rest).map (fun kv => reprLen kv.1 + 2 + listReprLen kv.2 + 2)).sum := rfl

theorem reprLen_bigToken : reprLen bigToken = 33002 := by
  rw [reprLen_eq bigToken, reprQuote_bigToken]
  rw [show bigToken = List.replicate 33000 'a' from rfl, List.map_replicate, sum_replicate_nat]
  decide


theorem listReprLen_cons2 (v : List Char) (vs : List (List Char)) :
    listReprLen (v :: vs) = reprLen v + 2 + (vs.map (fun x => reprLen x + 2)).sum := by
  rw [listReprLen_cons, List.map_cons, List.sum_cons]

theorem listReprLen_bigToken : listReprLen [bigToken] = 33004 := by
  rw [listReprLen_cons2 bigToken [], List.map_nil, List.sum_nil, reprLen_bigToken]
  decide

theorem polMapSum_cons (k : List Char) (v : List (List Char)) (rest : Policy) :
    (((k, v) :: rest).map (fun kv => reprLen kv.1 + 2 + listReprLen kv.2 + 2)).sum =
      reprLen k + 2 + listReprLen v + 2 +
      ((rest.map (fun kv => reprLen kv.1 + 2 + listReprLen kv.2 + 2)).sum) := by
  rw [List.map_cons, List.sum_cons]

theorem cspDataLen_bigPol : cspDataLen bigPol = 33047 := by
  rw [show bigPol = [("frame-ancestors".data, ["x".data]), ("default-src".data, [bigToken])]
    from rfl]
  rw [cspDataLen_cons _ _]
  rw [polMapSum_cons, polMapSum_cons, List.map_nil, List.sum_nil]
  rw [listReprLen_bigToken]
  rw [show reprLen "frame-ancestors".data = 17 from by decide]
  rw [show listReprLen ["x".data] = 5 from by decide]
  rw [show reprLen "default-src".data = 13 from by decide]
  decide

theorem bigCsp_data :
    (content_security_policy ctxBigCsp "csp-implemented-with-no-unsafe").data = some [] := by
  rw [csp_data_eq ctxBigCsp "csp-implemented-with-no-unsafe" bigPol (some bigPol, none)
    bigPair bigMerged]
  rw [bigClassify_snd, cspDataLen_bigPol]
  rw [if_neg (by decide)]
theorem xfo_result_eq (ctx : ScanContext) (e : String)
    (hxfo : ctx.auto.xfoHeader = none)
    (hdata : (content_security_policy ctx "csp-implemented-with-no-unsafe").data = some []) :
    (x_frame_options ctx e).result = "x-frame-options-not-implemented" := by
  unfold x_frame_options
  dsimp only
  rw [hxfo, hdata]
  rfl

/-- **C8 counterexample**: the merged policy of `ctxBigCsp` contains a
`frame-ancestors` directive, yet `x_frame_options` reports
`x-frame-options-not-implemented`: the serialized dictionary reaches the
32768-character cap, `output[\x27data\x27]` is emptied, and the override
test reads that emptied copy rather than the merged policy. -/
theorem C8_size_cap_counterexample :
    cspMergedPolicy ctxBigCsp.auto = some bigPol ∧
    bigPol.any (fun kv => kv.1 == "frame-ancestors".data) = true ∧
    (x_frame_options ctxBigCsp "x").result = "x-frame-options-not-implemented" :=
  ⟨bigMerged, rfl, xfo_result_eq ctxBigCsp "x" rfl bigCsp_data⟩
